import Mathlib

/-!
Statement synthesis policies of `pkg/executor/walk.go`.

A shallow embedding of the CREATE TABLE / CREATE INDEX / INSERT synthesizers.

* Go `int` is embedded as `Int`; no arithmetic in `walk.go` can leave the 64-bit range
  (the largest computed values are `Rd(31) + 1`, `Rd(10) + 1` and `MinInt(DataLen, 32) - 1`
  under the guard `DataLen > 1`).
* A function that mutates the statement passed by pointer returns the mutated statement
  together with its Go results; a Go pair `(text, error)` is an `Except String _`.
* A runtime failure (out-of-range index or slice, a failed type assertion, `Rd` on a
  non-positive bound) is the outer `Option` being `none`.
* The process-wide random source is an explicit tape of raw draws threaded through the calls.
-/

set_option autoImplicit false
set_option linter.dupNamespace false

namespace Walk

/-! ## Engine type codes (`mysql` package constants used by `Type2Tp`) -/

def mysql.TypeLong : Nat := 3
def mysql.TypeFloat : Nat := 4
def mysql.TypeNull : Nat := 6
def mysql.TypeTimestamp : Nat := 7
def mysql.TypeDatetime : Nat := 12
def mysql.TypeVarchar : Nat := 15
def mysql.TypeBlob : Nat := 252

/-- The function `Type2Tp`: a `switch` over the type name with fallback `mysql.TypeNull`. -/
def Type2Tp (t : String) : Nat :=
  if t = "int" then mysql.TypeLong
  else if t = "varchar" then mysql.TypeVarchar
  else if t = "timestamp" then mysql.TypeTimestamp
  else if t = "datetime" then mysql.TypeDatetime
  else if t = "text" then mysql.TypeBlob
  else if t = "float" then mysql.TypeFloat
  else mysql.TypeNull

/-! ## The statement tree: only the fields `walk.go` reads or writes -/

/-- Case-insensitive string of the `model` package: the original text and its lower-cased form. -/
structure CIStr where
  O : String
  L : String
deriving DecidableEq, Repr

/-- The constructor `model.NewCIStr`; the lower-cased form is taken character by character. -/
def NewCIStr (s : String) : CIStr :=
  { O := s, L := String.mk (s.data.map Char.toLower) }

/-- The zero value of `CIStr`. -/
def CIStr.zero : CIStr := { O := "", L := "" }

structure ColumnName where
  Schema : CIStr := CIStr.zero
  Table : CIStr := CIStr.zero
  Name : CIStr
deriving DecidableEq, Repr

/-- The option kinds of `ast.ColumnOptionType`. -/
inductive ColumnOptionType where
  | ColumnOptionNoOption
  | ColumnOptionPrimaryKey
  | ColumnOptionNotNull
  | ColumnOptionAutoIncrement
  | ColumnOptionDefaultValue
  | ColumnOptionUniqKey
  | ColumnOptionNull
  | ColumnOptionOnUpdate
  | ColumnOptionFulltext
  | ColumnOptionComment
  | ColumnOptionGenerated
  | ColumnOptionReference
  | ColumnOptionCollate
  | ColumnOptionCheck
deriving DecidableEq, Repr

structure ColumnOption where
  Tp : ColumnOptionType
deriving DecidableEq, Repr

/-- The type descriptor `parserTypes.FieldType`: type code, declared length, decimals. -/
structure FieldType where
  Tp : Nat
  Flen : Int
  Decimal : Int
deriving DecidableEq, Repr

/-- The constant `types.UnspecifiedLength`. -/
def UnspecifiedLength : Int := -1

/-- The constructor `parserTypes.NewFieldType`: both lengths start unspecified. -/
def NewFieldType (tp : Nat) : FieldType :=
  { Tp := tp, Flen := UnspecifiedLength, Decimal := UnspecifiedLength }

structure ColumnDef where
  Name : ColumnName
  Tp : FieldType
  Options : List ColumnOption := []
deriving DecidableEq, Repr

/-- An index part; `walk.go` sets `Column` only, so `Length` keeps its zero value. -/
structure IndexPartSpecification where
  Column : ColumnName
  Length : Int := 0
deriving DecidableEq, Repr

inductive ConstraintType where
  | ConstraintNoConstraint
  | ConstraintPrimaryKey
  | ConstraintKey
  | ConstraintIndex
  | ConstraintUniq
deriving DecidableEq, Repr

structure Constraint where
  Tp : ConstraintType
  Keys : List IndexPartSpecification
deriving DecidableEq, Repr

structure TableName where
  Name : CIStr
deriving DecidableEq, Repr

structure CreateTableStmt where
  Table : TableName
  Cols : List ColumnDef
  Constraints : List Constraint
deriving DecidableEq, Repr

structure CreateIndexStmt where
  IndexName : String
  Table : TableName
  IndexPartSpecifications : List IndexPartSpecification
deriving DecidableEq, Repr

/-- A value expression built by `ast.NewValueExpr`: `none` is the `nil` datum (SQL NULL). -/
structure ExprNode (δ : Type) where
  datum : Option δ
deriving DecidableEq, Repr

/-- The call `ast.NewValueExpr(v, "", "")`. -/
def NewValueExpr {δ : Type} (v : Option δ) : ExprNode δ := { datum := v }

/-- The left operand of the insert target: a table name, or any other result-set node. -/
inductive ResultSetNode where
  | tableName (t : TableName)
  | other
deriving DecidableEq, Repr

structure Join where
  Left : ResultSetNode
deriving DecidableEq, Repr

structure TableRefsClause where
  TableRefs : Join
deriving DecidableEq, Repr

structure InsertStmt (δ : Type) where
  Table : TableRefsClause
  Columns : List ColumnName
  Lists : List (List (ExprNode δ))
deriving DecidableEq, Repr

/-! ## Catalog types (`pkg/types`) -/

/-- Modelled from the spec: `types.Column` is declared outside `walk.go`; it has a table name,
a column name, an abstract data type, a declared length and a set of column options. -/
structure Column where
  Table : String
  Column : String
  DataType : String
  DataLen : Int
  Options : List ColumnOptionType
deriving DecidableEq, Repr

/-- Modelled from the spec: `Column.HasOption` is declared outside `walk.go`; presence of an
option is a membership test. -/
def Column.HasOption (c : Walk.Column) (o : ColumnOptionType) : Bool :=
  decide (o ∈ c.Options)

/-- Modelled from the spec: `types.Table` is declared outside `walk.go`; it has a table name and
an ordered sequence of columns. -/
structure Table where
  Table : String
  Columns : List Column
deriving DecidableEq, Repr

/-- The receiver of the walk functions. The field `tables` is the map `e.tables`, given as its
entries in the order in which a `range` over the map yields them; keys are pairwise distinct and
every value points to a table (no `nil` entry). -/
structure Executor where
  tables : List (String × Table)
deriving DecidableEq, Repr

/-! ## Random source -/

/-- The tape of raw draws that remain in the process-wide random source. -/
abbrev Rng := List Nat

/-- Modelled from the spec: `Rd` is declared outside `walk.go`; `UniformInt(n) → [0,n)`.
One raw draw is consumed and reduced into `[0,n)`; there is no value to return for `n ≤ 0`,
which is a runtime failure. -/
def Rd (n : Int) (g : Rng) : Option (Int × Rng) :=
  if 0 < n then some (((g.headD 0 : Nat) : Int) % n, g.tail) else none

/-- Modelled from the spec: `MinInt` is declared outside `walk.go`; the smaller of two ints. -/
def MinInt (a b : Int) : Int := if a < b then a else b

/-- The collaborators of `walk.go` that are declared elsewhere, taken as parameters: the length
table, the printer `BufferOut` at each statement type, the remaining random primitives and the
scalar value generators (which may themselves draw from the random source and return a non-nil
datum of type `δ`). -/
structure Externals (δ : Type) where
  dataType2Len : String → Int
  BufferOutCreateTable : CreateTableStmt → Except String String
  BufferOutCreateIndex : CreateIndexStmt → Except String String
  BufferOutInsert : InsertStmt δ → Except String String
  RdRange : Int → Int → Rng → Int × Rng
  RdStringChar : Int → Rng → String × Rng
  GenerateDataItem : Column → Rng → δ × Rng
  GenerateZeroDataItem : Column → Rng → δ × Rng
  GenerateEnumDataItem : Column → Rng → δ × Rng

/-! ## Table synthesizer -/

/-- Modelled from the spec: `makeConstraintPrimaryKey` is declared outside `walk.go`; it adds a
PRIMARY KEY constraint referencing the named column. -/
def makeConstraintPrimaryKey (node : CreateTableStmt) (column : String) : CreateTableStmt :=
  { node with
    Constraints := node.Constraints ++
      [{ Tp := ConstraintType.ConstraintPrimaryKey,
         Keys := [{ Column := { Name := NewCIStr column } }] }] }

/-- The column definition appended by the loop of `walkDDLCreateTable` for one `colType`. -/
def colDefOf (dataType2Len : String → Int) (colType : String) : ColumnDef :=
  { Name := { Name := NewCIStr ("col_" ++ colType) },
    Tp := { NewFieldType (Type2Tp colType) with Flen := dataType2Len colType } }

/-- The function `walkDDLCreateTable`: the mutated statement and the returned
`(sql, table, err)`. -/
def walkDDLCreateTable {δ : Type} (X : Externals δ) (node : CreateTableStmt)
    (colTypes : List String) : CreateTableStmt × Except String (String × String) :=
  let table := "table" ++ "_" ++ String.intercalate "_" colTypes
  let idFieldType := { NewFieldType (Type2Tp "int") with Flen := X.dataType2Len "int" }
  let idCol : ColumnDef :=
    { Name := { Name := NewCIStr "id" },
      Tp := idFieldType,
      Options := [{ Tp := ColumnOptionType.ColumnOptionAutoIncrement }] }
  let node1 := { node with Cols := node.Cols ++ [idCol] }
  let node2 := makeConstraintPrimaryKey node1 "id"
  let node3 := { node2 with Table := { Name := NewCIStr table } }
  let node4 := { node3 with
    Cols := colTypes.foldl (fun cols colType => cols ++ [colDefOf X.dataType2Len colType])
      node3.Cols }
  match X.BufferOutCreateTable node4 with
  | Except.error err => (node4, Except.error err)
  | Except.ok sql => (node4, Except.ok (sql, table))

/-! ## Index synthesizer -/

/-- The function `randTable`: the snapshot of the map values in iteration order, then one draw.
The result is `none` for Go's `nil` table. -/
def randTable (e : Executor) (g : Rng) : Option (Option Table × Rng) :=
  let tables := e.tables.foldl (fun acc kv => acc ++ [kv.2]) ([] : List Table)
  if tables.length = 0 then some (none, g)
  else
    match Rd (tables.length : Int) g with
    | none => none
    | some (i, g1) =>
      match tables[i.toNat]? with
      | none => none
      | some t => some (some t, g1)

/-- The text `fmt.Sprintf("%s(%d)", name, length)`. -/
def sprintfNameLen (name : String) (length : Int) : String :=
  name ++ "(" ++ toString length ++ ")"

/-- The local `length` of one iteration of the column loop of `walkDDLCreateIndex`: absent for a
column that is neither `text` nor `varchar`. -/
def indexPartLength (column : Column) (g : Rng) : Option (Option Int × Rng) :=
  if column.DataType = "text" then
    match Rd 31 g with
    | none => none
    | some (r, g1) => some (some (r + 1), g1)
  else if column.DataType = "varchar" then
    if column.DataLen > 1 then
      let maxLen := MinInt column.DataLen 32
      match Rd (maxLen - 1) g with
      | none => none
      | some (r, g1) => some (some (r + 1), g1)
    else some (some 1, g)
  else some (none, g)

/-- The local `name` of one iteration of the column loop, given that iteration's `length`. -/
def indexPartName (column : Column) (length : Option Int) : String :=
  match length with
  | some l => sprintfNameLen column.Column l
  | none => column.Column

/-- One iteration of the column loop of `walkDDLCreateIndex`: the part that is appended. -/
def indexPart (column : Column) (g : Rng) : Option (IndexPartSpecification × Rng) :=
  match indexPartLength column g with
  | none => none
  | some (length, g1) =>
    some ({ Column := { Name := NewCIStr (indexPartName column length) } }, g1)

/-- The column loop of `walkDDLCreateIndex`, appending to the statement's part list. -/
def indexPartsLoop : List Column → List IndexPartSpecification → Rng →
    Option (List IndexPartSpecification × Rng)
  | [], parts, g => some (parts, g)
  | column :: rest, parts, g =>
    match indexPart column g with
    | none => none
    | some (part, g1) => indexPartsLoop rest (parts ++ [part]) g1

/-- The slice expression `s[:hi]`, which fails outside `0 ≤ hi ≤ len(s)` (the capacity of `s` is
not tracked, so a slice beyond the length counts as a failure). -/
def sliceTo {α : Type} (s : List α) (hi : Int) : Option (List α) :=
  if 0 ≤ hi ∧ hi ≤ (s.length : Int) then some (s.take hi.toNat) else none

/-- The function `walkDDLCreateIndex`: the mutated statement, the remaining random tape and the
returned `(sql, err)`. -/
def walkDDLCreateIndex {δ : Type} (X : Externals δ) (e : Executor) (node : CreateIndexStmt)
    (g : Rng) : Option (CreateIndexStmt × Rng × Except String String) :=
  match randTable e g with
  | none => none
  | some (none, g1) => some (node, g1, Except.error "no table available")
  | some (some table, g1) =>
    let node1 := { node with Table := { Name := NewCIStr table.Table } }
    let node2 := { node1 with IndexName := (X.RdStringChar 5 g1).1 }
    let g2 := (X.RdStringChar 5 g1).2
    match indexPartsLoop table.Columns node2.IndexPartSpecifications g2 with
    | none => none
    | some (parts, g3) =>
      let node3 := { node2 with IndexPartSpecifications := parts }
      if node3.IndexPartSpecifications.length > 10 then
        match Rd 10 g3 with
        | none => none
        | some (r, g4) =>
          match sliceTo node3.IndexPartSpecifications (r + 1) with
          | none => none
          | some parts4 =>
            let node4 := { node3 with IndexPartSpecifications := parts4 }
            some (node4, g4, X.BufferOutCreateIndex node4)
      else some (node3, g3, X.BufferOutCreateIndex node3)

/-! ## Insert synthesizer -/

/-- The function `walkColumns`: the extended column-name list `*columns` and the returned
column descriptors. -/
def walkColumns : List ColumnName → List Column → List ColumnName × List Column
  | columns, [] => (columns, [])
  | columns, column :: rest =>
    if column.Column = "id" then walkColumns columns rest
    else
      let r := walkColumns
        (columns ++ [{ Table := NewCIStr column.Table, Name := NewCIStr column.Column }]) rest
      (r.1, column :: r.2)

/-- The column loop of `randList`, appending to `list`. -/
def randListLoop {δ : Type} (X : Externals δ) : List Column → List (ExprNode δ) → Rng →
    Option (List (ExprNode δ) × Rng)
  | [], list, g => some (list, g)
  | column :: rest, list, g =>
    match Rd 3 g with
    | none => none
    | some (d, g1) =>
      if d = 0 then
        if column.HasOption ColumnOptionType.ColumnOptionNotNull then
          randListLoop X rest
            (list ++ [NewValueExpr (some (X.GenerateEnumDataItem column g1).1)])
            (X.GenerateEnumDataItem column g1).2
        else randListLoop X rest (list ++ [NewValueExpr none]) g1
      else
        randListLoop X rest
          (list ++ [NewValueExpr (some (X.GenerateEnumDataItem column g1).1)])
          (X.GenerateEnumDataItem column g1).2

/-- The function `randList`. -/
def randList {δ : Type} (X : Externals δ) (columns : List Column) (g : Rng) :
    Option (List (ExprNode δ) × Rng) :=
  randListLoop X columns [] g

/-- The row loop of `walkLists`: `n` more iterations, appending one row each. -/
def rowsLoop {δ : Type} (X : Externals δ) (noIDColumns : List Column) :
    Nat → List (List (ExprNode δ)) → Rng → Option (List (List (ExprNode δ)) × Rng)
  | 0, lists, g => some (lists, g)
  | n + 1, lists, g =>
    match randList X noIDColumns g with
    | none => none
    | some (row, g1) => rowsLoop X noIDColumns n (lists ++ [row]) g1

/-- The function `walkLists`: the extended row list `*lists`. The loop `for i := 0; i < count;
i++` runs `count` times, and not at all for a non-positive `count`. -/
def walkLists {δ : Type} (X : Externals δ) (lists : List (List (ExprNode δ)))
    (columns : List Column) (g : Rng) : Option (List (List (ExprNode δ)) × Rng) :=
  let noIDColumns := columns.foldl
    (fun acc column => if column.Column ≠ "id" then acc ++ [column] else acc) ([] : List Column)
  let count := (X.RdRange 10 20 g).1
  let g1 := (X.RdRange 10 20 g).2
  rowsLoop X noIDColumns count.toNat lists g1

/-- The function `walkInsertStmtForTable`: the mutated statement, the remaining random tape and
the returned `(sql, err)`. The map lookup `e.tables[tableName]` is the entry with that key. -/
def walkInsertStmtForTable {δ : Type} (X : Externals δ) (e : Executor) (node : InsertStmt δ)
    (tableName : String) (g : Rng) : Option (InsertStmt δ × Rng × Except String String) :=
  match e.tables.lookup tableName with
  | none => some (node, g, Except.error ("table " ++ tableName ++ " not exist"))
  | some table =>
    match node.Table.TableRefs.Left with
    | ResultSetNode.other => none
    | ResultSetNode.tableName t =>
      let left := ResultSetNode.tableName { t with Name := NewCIStr table.Table }
      let node1 := { node with Table := { TableRefs := { Left := left } } }
      let r := walkColumns node1.Columns table.Columns
      let node2 := { node1 with Columns := r.1 }
      match walkLists X node2.Lists r.2 g with
      | none => none
      | some (lists, g1) =>
        let node3 := { node2 with Lists := lists }
        some (node3, g1, X.BufferOutInsert node3)

/-! ## Exhaustive boundary rows (the inactive strategy) -/

/-- The function `randor0`. The head access `cols[0]` fails on an empty list; the values
`zeroVal` and `randVal` are generated once per call, before the recursive call on `cols[1:]`. -/
def randor0 {δ : Type} (X : Externals δ) : List Column → Rng →
    Option (List (List (ExprNode δ)) × Rng)
  | [], _ => none
  | column :: rest, g =>
    let zeroVal : ExprNode δ := NewValueExpr (some (X.GenerateZeroDataItem column g).1)
    let g1 := (X.GenerateZeroDataItem column g).2
    let randVal : ExprNode δ := NewValueExpr (some (X.GenerateDataItem column g1).1)
    let g2 := (X.GenerateDataItem column g1).2
    let nullVal : ExprNode δ := NewValueExpr none
    if (column :: rest).length = 1 then
      some ([[zeroVal], [randVal], [nullVal]], g2)
    else
      match randor0 X rest g2 with
      | none => none
      | some (subs, g3) =>
        some (subs.foldl
          (fun res sub => res ++ [zeroVal :: sub, randVal :: sub, nullVal :: sub]) [], g3)

/-! ## Empty statement shells -/

/-- A CREATE TABLE shell with an unnamed table, no columns and no constraints. -/
def emptyCreateTableStmt : CreateTableStmt :=
  { Table := { Name := CIStr.zero }, Cols := [], Constraints := [] }

/-- A CREATE INDEX shell with no index name, an unnamed table and no index parts. -/
def emptyCreateIndexStmt : CreateIndexStmt :=
  { IndexName := "", Table := { Name := CIStr.zero }, IndexPartSpecifications := [] }

/-- An INSERT shell whose target is an unnamed table, with no columns and no rows. -/
def emptyInsertStmt (δ : Type) : InsertStmt δ :=
  { Table := { TableRefs := { Left := ResultSetNode.tableName { Name := CIStr.zero } } },
    Columns := [], Lists := [] }


/-! ## Closed forms used in the proofs -/

/-- The row that `randList` builds, without the accumulator. -/
def rowOf {δ : Type} (X : Externals δ) : List Column → Rng → List (ExprNode δ) × Rng
  | [], g => ([], g)
  | column :: rest, g =>
    if ((g.headD 0 : Nat) : Int) % 3 = 0 ∧
        column.HasOption ColumnOptionType.ColumnOptionNotNull = false then
      (NewValueExpr none :: (rowOf X rest g.tail).1, (rowOf X rest g.tail).2)
    else
      (NewValueExpr (some (X.GenerateEnumDataItem column g.tail).1) ::
          (rowOf X rest (X.GenerateEnumDataItem column g.tail).2).1,
        (rowOf X rest (X.GenerateEnumDataItem column g.tail).2).2)

/-! ## Sample catalog entries -/

/-- A catalog table that has no column named `id`. -/
def tableWithoutId : Table :=
  { Table := "t",
    Columns :=
      [{ Table := "t", Column := "col_int", DataType := "int", DataLen := 11, Options := [] }] }

/-- A catalog table shaped like a synthesized one: `id` first, then a NOT NULL integer column and
a nullable text column. -/
def sampleTable : Table :=
  { Table := "table_int_text",
    Columns :=
      [{ Table := "table_int_text", Column := "id", DataType := "int", DataLen := 11,
         Options := [ColumnOptionType.ColumnOptionAutoIncrement] },
       { Table := "table_int_text", Column := "col_int", DataType := "int", DataLen := 11,
         Options := [ColumnOptionType.ColumnOptionNotNull] },
       { Table := "table_int_text", Column := "col_text", DataType := "text", DataLen := 0,
         Options := [] }] }

/-- A catalog holding `sampleTable` only. -/
def sampleExecutor : Executor := { tables := [("table_int_text", sampleTable)] }

/-- A catalog table with twelve columns `c0`, ..., `c11`, alternately `varchar(20)` and `int`. -/
def wideTable : Table :=
  { Table := "wide",
    Columns := (List.range 12).map fun i =>
      { Table := "wide", Column := "c" ++ toString i,
        DataType := if i % 2 = 0 then "varchar" else "int", DataLen := 20, Options := [] } }

/-- A `varchar(0)` column. -/
def varcharZero : Column :=
  { Table := "t", Column := "c", DataType := "varchar", DataLen := 0, Options := [] }

/-- A `varchar(2)` column. -/
def varcharTwo : Column :=
  { Table := "t", Column := "c", DataType := "varchar", DataLen := 2, Options := [] }

/-- A `text` column. -/
def textColumn : Column :=
  { Table := "t", Column := "c", DataType := "text", DataLen := 0, Options := [] }

/-! ## Choice vectors for the boundary rows -/

/-- The alternative a column takes in a boundary row: its zero value, its random value, null. -/
inductive Alt where
  | zero
  | rand
  | null
deriving DecidableEq, Repr

/-- The expression an alternative stands for, given a column's zero and random expressions. -/
def Alt.pick {δ : Type} (vals : ExprNode δ × ExprNode δ) : Alt → ExprNode δ
  | Alt.zero => vals.1
  | Alt.rand => vals.2
  | Alt.null => NewValueExpr none

/-- All assignments of an alternative to each of `n` columns, in the order in which `randor0`
emits the rows. -/
def assignments : Nat → List (List Alt)
  | 0 => [[]]
  | n + 1 => (assignments n).flatMap fun sub => [Alt.zero :: sub, Alt.rand :: sub, Alt.null :: sub]

/-- The row of an assignment, given the zero and random expressions of each column. -/
def rowOfAssignment {δ : Type} (vals : List (ExprNode δ × ExprNode δ)) (a : List Alt) :
    List (ExprNode δ) :=
  List.zipWith Alt.pick vals a

/-- A catalog table whose only column is `id`. -/
def tableOnlyId : Table :=
  { Table := "t",
    Columns :=
      [{ Table := "t", Column := "id", DataType := "int", DataLen := 11,
         Options := [ColumnOptionType.ColumnOptionAutoIncrement] }] }

/-- An INSERT shell whose target is not a table name. -/
def shellWithoutTableName : InsertStmt Nat :=
  { Table := { TableRefs := { Left := ResultSetNode.other } }, Columns := [], Lists := [] }

/-- A catalog of two tables, with `tableWithoutId` first in iteration order. -/
def catalogOrderOne : Executor :=
  { tables := [("t", tableWithoutId), ("wide", wideTable)] }

/-- The same catalog contents, with `wideTable` first in iteration order. -/
def catalogOrderTwo : Executor :=
  { tables := [("wide", wideTable), ("t", tableWithoutId)] }

/-! ## A concrete instance of the collaborators, for evaluating the synthesizers -/

/-- A sample instance of the external collaborators: a small length table, printers that always
succeed, and generators that read the random tape. -/
def sampleExternals : Externals Nat :=
  { dataType2Len := fun t => if t = "int" then 16 else if t = "varchar" then 511 else 0,
    BufferOutCreateTable := fun n => Except.ok ("CREATE TABLE " ++ n.Table.Name.O),
    BufferOutCreateIndex := fun n => Except.ok ("CREATE INDEX " ++ n.IndexName),
    BufferOutInsert := fun _ => Except.ok "INSERT",
    RdRange := fun lo hi g => (lo + ((g.headD 0 : Nat) : Int) % (hi - lo + 1), g.tail),
    RdStringChar := fun _ g => ("abcde", g.tail),
    GenerateDataItem := fun _ g => (g.headD 0, g.tail),
    GenerateZeroDataItem := fun _ g => (0, g),
    GenerateEnumDataItem := fun _ g => (g.headD 0, g.tail) }

/-! ## Auxiliary facts -/

theorem foldl_append_singleton {α β : Type} (f : α → β) (l : List α) (init : List β) :
    l.foldl (fun acc x => acc ++ [f x]) init = init ++ l.map f := by
  induction l generalizing init with
  | nil => simp
  | cons a l ih => simp [ih]

theorem col_name_ne_id (t : String) : "col_" ++ t ≠ "id" := by
  intro h
  have h2 := congrArg String.data h
  simp [String.data_append] at h2

theorem table_name_eq (s : String) : "table" ++ "_" ++ s = "table_" ++ s := by
  apply String.ext
  simp [String.data_append]

/-! ## Table synthesizer: results -/

/-- The statement left by `walkDDLCreateTable`, in closed form. -/
theorem walkDDLCreateTable_node {δ : Type} (X : Externals δ) (node : CreateTableStmt)
    (colTypes : List String) :
    (walkDDLCreateTable X node colTypes).1 =
      { Table := { Name := NewCIStr ("table_" ++ String.intercalate "_" colTypes) },
        Cols := node.Cols ++
          { Name := { Name := NewCIStr "id" },
            Tp := { NewFieldType (Type2Tp "int") with Flen := X.dataType2Len "int" },
            Options := [{ Tp := ColumnOptionType.ColumnOptionAutoIncrement }] } ::
          colTypes.map (colDefOf X.dataType2Len),
        Constraints := node.Constraints ++
          [{ Tp := ConstraintType.ConstraintPrimaryKey,
             Keys := [{ Column := { Name := NewCIStr "id" } }] }] } := by
  unfold walkDDLCreateTable
  simp only [makeConstraintPrimaryKey, foldl_append_singleton, table_name_eq]
  split <;> simp

/-- The results returned by `walkDDLCreateTable`: the printer's error, or the printed text with
the table name. -/
theorem walkDDLCreateTable_result {δ : Type} (X : Externals δ) (node : CreateTableStmt)
    (colTypes : List String) :
    (walkDDLCreateTable X node colTypes).2 =
      (X.BufferOutCreateTable (walkDDLCreateTable X node colTypes).1).map
        (fun sql => (sql, "table_" ++ String.intercalate "_" colTypes)) := by
  unfold walkDDLCreateTable
  simp only [table_name_eq]
  split <;> rename_i heq <;> simp [heq, Except.map]

/-- C1: for every `colTypes` of length N, `walkDDLCreateTable` on an empty shell leaves exactly
N+1 column definitions; the first is named `id`, has type code `Type2Tp "int"` (the LONG code),
carries AUTO_INCREMENT and is the only key of the only (PRIMARY KEY) constraint; no other column
is named `id`. -/
theorem walkDDLCreateTable_id_column {δ : Type} (X : Externals δ) (colTypes : List String) :
    ∃ idCol rest,
      (walkDDLCreateTable X emptyCreateTableStmt colTypes).1.Cols = idCol :: rest ∧
      (walkDDLCreateTable X emptyCreateTableStmt colTypes).1.Cols.length = colTypes.length + 1 ∧
      idCol.Name.Name.O = "id" ∧
      idCol.Tp.Tp = Type2Tp "int" ∧ Type2Tp "int" = mysql.TypeLong ∧
      ColumnOption.mk ColumnOptionType.ColumnOptionAutoIncrement ∈ idCol.Options ∧
      (walkDDLCreateTable X emptyCreateTableStmt colTypes).1.Constraints =
        [{ Tp := ConstraintType.ConstraintPrimaryKey, Keys := [{ Column := idCol.Name }] }] ∧
      (∀ c ∈ rest, c.Name.Name.O ≠ "id") := by
  rw [walkDDLCreateTable_node]
  refine ⟨_, _, rfl, ?_, rfl, rfl, rfl, ?_, rfl, ?_⟩
  · simp [emptyCreateTableStmt]
  · simp
  · intro c hc
    simp only [List.mem_map] at hc
    obtain ⟨t, _, rfl⟩ := hc
    exact col_name_ne_id t

/-- C2: when the printer succeeds, `walkDDLCreateTable` returns the printed text together with
the table name `"table_"` followed by the `colTypes` joined by `"_"`, which is also the name set
on the statement; for `["int", "varchar"]` the name set is `table_int_varchar`. -/
theorem walkDDLCreateTable_table_name {δ : Type} (X : Externals δ) (node : CreateTableStmt)
    (colTypes : List String) (sql : String)
    (h : X.BufferOutCreateTable (walkDDLCreateTable X node colTypes).1 = Except.ok sql) :
    (walkDDLCreateTable X node colTypes).2 =
        Except.ok (sql, "table_" ++ String.intercalate "_" colTypes) ∧
      (walkDDLCreateTable X node colTypes).1.Table.Name.O =
        "table_" ++ String.intercalate "_" colTypes ∧
      (walkDDLCreateTable X node ["int", "varchar"]).1.Table.Name.O = "table_int_varchar" := by
  refine ⟨?_, ?_, ?_⟩
  · rw [walkDDLCreateTable_result, h]; rfl
  · rw [walkDDLCreateTable_node]; rfl
  · rw [walkDDLCreateTable_node]
    show "table_" ++ String.intercalate "_" ["int", "varchar"] = "table_int_varchar"
    decide

/-- Witness for C2 on the sample collaborators, whose printer succeeds. -/
theorem walkDDLCreateTable_table_name_witness :
    (walkDDLCreateTable sampleExternals emptyCreateTableStmt ["int", "varchar"]).2 =
        Except.ok ("CREATE TABLE table_int_varchar",
          "table_" ++ String.intercalate "_" ["int", "varchar"]) ∧
      (walkDDLCreateTable sampleExternals emptyCreateTableStmt ["int", "varchar"]).1.Table.Name.O =
        "table_" ++ String.intercalate "_" ["int", "varchar"] ∧
      (walkDDLCreateTable sampleExternals emptyCreateTableStmt ["int", "varchar"]).1.Table.Name.O =
        "table_int_varchar" :=
  walkDDLCreateTable_table_name sampleExternals emptyCreateTableStmt ["int", "varchar"]
    "CREATE TABLE table_int_varchar" (by rfl)


/-! ## Insert synthesizer: results -/

theorem Rd_pos (n : Int) (g : Rng) (h : 0 < n) :
    Rd n g = some (((g.headD 0 : Nat) : Int) % n, g.tail) := by
  simp [Rd, h]

theorem randListLoop_eq {δ : Type} (X : Externals δ) (columns : List Column)
    (list : List (ExprNode δ)) (g : Rng) :
    randListLoop X columns list g =
      some (list ++ (rowOf X columns g).1, (rowOf X columns g).2) := by
  induction columns generalizing list g with
  | nil => simp [randListLoop, rowOf]
  | cons c cs ih =>
    rw [randListLoop, Rd_pos 3 g (by decide)]
    simp only [rowOf]
    generalize ((g.headD 0 : Nat) : Int) % 3 = d
    by_cases hd : d = 0
    · by_cases hn : c.HasOption ColumnOptionType.ColumnOptionNotNull = true
      · simp [hd, hn, ih]
      · simp [hd, hn, ih]
    · simp [hd, ih]

theorem randList_eq {δ : Type} (X : Externals δ) (columns : List Column) (g : Rng) :
    randList X columns g = some (rowOf X columns g) := by
  simp [randList, randListLoop_eq]

theorem rowOf_append {δ : Type} (X : Externals δ) (pre rest : List Column) (g : Rng) :
    rowOf X (pre ++ rest) g =
      ((rowOf X pre g).1 ++ (rowOf X rest (rowOf X pre g).2).1,
        (rowOf X rest (rowOf X pre g).2).2) := by
  induction pre generalizing g with
  | nil => simp [rowOf]
  | cons c cs ih =>
    simp only [List.cons_append, rowOf]
    split <;> simp [ih]

theorem rowOf_forall₂ {δ : Type} (X : Externals δ) (columns : List Column) (g : Rng) :
    List.Forall₂
      (fun column x => x = NewValueExpr none ∨
        ∃ g0, x = NewValueExpr (some (X.GenerateEnumDataItem column g0).1))
      columns (rowOf X columns g).1 := by
  induction columns generalizing g with
  | nil => simp [rowOf]
  | cons c cs ih =>
    simp only [rowOf]
    split
    · exact List.Forall₂.cons (Or.inl rfl) (ih _)
    · exact List.Forall₂.cons (Or.inr ⟨_, rfl⟩) (ih _)

theorem rowsLoop_eq {δ : Type} (X : Externals δ) (cols : List Column) (n : Nat)
    (lists : List (List (ExprNode δ))) (g : Rng) :
    ∃ rows g1, rowsLoop X cols n lists g = some (lists ++ rows, g1) ∧ rows.length = n ∧
      ∀ row ∈ rows, ∃ g0, row = (rowOf X cols g0).1 := by
  induction n generalizing lists g with
  | zero => exact ⟨[], g, by simp [rowsLoop], rfl, by simp⟩
  | succ n ih =>
    obtain ⟨rows, g1, h1, h2, h3⟩ := ih (lists ++ [(rowOf X cols g).1]) (rowOf X cols g).2
    refine ⟨(rowOf X cols g).1 :: rows, g1, ?_, by simp [h2], ?_⟩
    · simp [rowsLoop, randList_eq, h1]
    · intro row hrow
      rcases List.mem_cons.1 hrow with h | h
      · exact ⟨g, h⟩
      · exact h3 row h

theorem walkColumns_eq (columns : List ColumnName) (cols : List Column) :
    walkColumns columns cols =
      (columns ++ (cols.filter (fun c => decide (c.Column ≠ "id"))).map
          (fun c => { Table := NewCIStr c.Table, Name := NewCIStr c.Column }),
        cols.filter (fun c => decide (c.Column ≠ "id"))) := by
  induction cols generalizing columns with
  | nil => simp [walkColumns]
  | cons c cs ih =>
    by_cases h : c.Column = "id"
    · simp [walkColumns, h, ih]
    · simp [walkColumns, h, ih]

theorem noIDColumns_eq (columns : List Column) (acc : List Column) :
    columns.foldl (fun acc column => if column.Column ≠ "id" then acc ++ [column] else acc) acc =
      acc ++ columns.filter (fun c => decide (c.Column ≠ "id")) := by
  induction columns generalizing acc with
  | nil => simp
  | cons c cs ih =>
    rw [List.foldl_cons, ih]
    by_cases h : c.Column = "id" <;> simp [h, List.filter_cons]

theorem rowOf_length {δ : Type} (X : Externals δ) (columns : List Column) (g : Rng) :
    (rowOf X columns g).1.length = columns.length :=
  (rowOf_forall₂ X columns g).length_eq.symm

theorem walkLists_eq {δ : Type} (X : Externals δ) (lists : List (List (ExprNode δ)))
    (columns : List Column) (g : Rng) :
    ∃ rows g1, walkLists X lists columns g = some (lists ++ rows, g1) ∧
      rows.length = (X.RdRange 10 20 g).1.toNat ∧
      ∀ row ∈ rows, ∃ g0,
        row = (rowOf X (columns.filter (fun c => decide (c.Column ≠ "id"))) g0).1 := by
  unfold walkLists
  simp only [noIDColumns_eq, List.nil_append]
  exact rowsLoop_eq X _ _ lists _

theorem filter_filter_ne_id (cols : List Column) :
    (cols.filter (fun c => decide (c.Column ≠ "id"))).filter (fun c => decide (c.Column ≠ "id")) =
      cols.filter (fun c => decide (c.Column ≠ "id")) := by
  simp [List.filter_filter]

/-- C3: at any position of the column list, with `d` the outcome of that column's draw `Rd(3)`
(always one of 0, 1, 2), the value `randList` emits for the column is the generated value when
the column has NOT NULL, whatever `d`; for a column without NOT NULL it is the null expression
exactly when `d = 0`, and the generated value when `d` is 1 or 2. A generated value is never the
null expression. -/
theorem randList_column_value {δ : Type} (X : Externals δ) (pre : List Column) (column : Column)
    (rest : List Column) (g : Rng) :
    ∃ rowPre g0 d g1 x row g2,
      randList X pre g = some (rowPre, g0) ∧ rowPre.length = pre.length ∧
      Rd 3 g0 = some (d, g1) ∧ (d = 0 ∨ d = 1 ∨ d = 2) ∧
      randList X (pre ++ column :: rest) g = some (rowPre ++ x :: row, g2) ∧
      NewValueExpr (some (X.GenerateEnumDataItem column g1).1) ≠ NewValueExpr none ∧
      (column.HasOption ColumnOptionType.ColumnOptionNotNull = true →
        x = NewValueExpr (some (X.GenerateEnumDataItem column g1).1)) ∧
      (column.HasOption ColumnOptionType.ColumnOptionNotNull = false →
        (x = NewValueExpr none ↔ d = 0) ∧
        (d = 1 ∨ d = 2 → x = NewValueExpr (some (X.GenerateEnumDataItem column g1).1))) := by
  have hd : ((((rowOf X pre g).2.headD 0 : Nat) : Int) % 3 = 0 ∨
      (((rowOf X pre g).2.headD 0 : Nat) : Int) % 3 = 1 ∨
      (((rowOf X pre g).2.headD 0 : Nat) : Int) % 3 = 2) := by omega
  have hne : ∀ v : δ, (NewValueExpr (some v) : ExprNode δ) ≠ NewValueExpr none := by
    intro v h
    simp [NewValueExpr] at h
  refine ⟨(rowOf X pre g).1, (rowOf X pre g).2, _, _,
    (rowOf X [column] (rowOf X pre g).2).1.headD (NewValueExpr none),
    (rowOf X rest (rowOf X [column] (rowOf X pre g).2).2).1,
    (rowOf X rest (rowOf X [column] (rowOf X pre g).2).2).2,
    randList_eq X pre g, rowOf_length X pre g, Rd_pos 3 _ (by decide), hd, ?_, hne _, ?_, ?_⟩
  · rw [randList_eq, rowOf_append]
    have : column :: rest = [column] ++ rest := rfl
    rw [this, rowOf_append]
    simp only [rowOf]
    split <;> simp
  · intro hn
    simp [rowOf, hn]
  · intro hn
    simp only [rowOf, hn, and_true]
    generalize (((rowOf X pre g).2.headD 0 : Nat) : Int) % 3 = d at hd
    by_cases h0 : d = 0
    · simp [h0]
    · simp only [h0, if_false, List.headD_cons, false_iff, iff_false]
      exact ⟨hne _, fun _ => trivial⟩

/-- What `walkInsertStmtForTable` leaves and returns for a table that is in the catalog, on a
statement whose insert target is a table name. -/
theorem walkInsertStmtForTable_found {δ : Type} (X : Externals δ) (e : Executor)
    (node : InsertStmt δ) (t : TableName) (tableName : String) (table : Table) (g : Rng)
    (hnode : node.Table.TableRefs.Left = ResultSetNode.tableName t)
    (h : e.tables.lookup tableName = some table) :
    ∃ node1 g1 rows,
      walkInsertStmtForTable X e node tableName g = some (node1, g1, X.BufferOutInsert node1) ∧
      node1.Columns = node.Columns ++
        (table.Columns.filter (fun c => decide (c.Column ≠ "id"))).map
          (fun c => { Table := NewCIStr c.Table, Name := NewCIStr c.Column }) ∧
      node1.Lists = node.Lists ++ rows ∧
      walkLists X node.Lists (walkColumns node.Columns table.Columns).2 g =
        some (node1.Lists, g1) ∧
      rows.length = (X.RdRange 10 20 g).1.toNat ∧
      ∀ row ∈ rows, ∃ g0,
        row = (rowOf X (table.Columns.filter (fun c => decide (c.Column ≠ "id"))) g0).1 := by
  obtain ⟨rows, g1, h1, h2, h3⟩ :=
    walkLists_eq X node.Lists (walkColumns node.Columns table.Columns).2 g
  refine ⟨{ Table := { TableRefs :=
              { Left := ResultSetNode.tableName { t with Name := NewCIStr table.Table } } },
            Columns := (walkColumns node.Columns table.Columns).1,
            Lists := node.Lists ++ rows }, g1, rows, ?_, ?_, ?_, ?_, h2, ?_⟩
  · unfold walkInsertStmtForTable
    simp only [h, hnode, h1]
  · simp [walkColumns_eq]
  · rfl
  · exact h1
  · intro row hrow
    obtain ⟨g0, hg0⟩ := h3 row hrow
    refine ⟨g0, ?_⟩
    rw [hg0, walkColumns_eq]
    simp only [filter_filter_ne_id]

/-- C4 (amended): for every table found in the catalog and every random tape, the INSERT built
by `walkInsertStmtForTable` on an empty shell has a column list without `id`; the column list
and every value row have the same length, the number of the table's columns not named `id`,
which is the table's column count minus one when exactly one column is named `id`. -/
theorem walkInsertStmtForTable_columns {δ : Type} (X : Externals δ) (e : Executor)
    (tableName : String) (table : Table) (g : Rng)
    (h : e.tables.lookup tableName = some table) :
    ∃ node1 g1 r,
      walkInsertStmtForTable X e (emptyInsertStmt δ) tableName g = some (node1, g1, r) ∧
      (∀ c ∈ node1.Columns, c.Name.O ≠ "id") ∧
      node1.Columns.length =
        (table.Columns.filter (fun c => decide (c.Column ≠ "id"))).length ∧
      (∀ row ∈ node1.Lists, row.length = node1.Columns.length) ∧
      (table.Columns.countP (fun c => decide (c.Column = "id")) = 1 →
        (node1.Columns.length : Int) = (table.Columns.length : Int) - 1) := by
  obtain ⟨node1, g1, rows, h1, h2, h3, _, _, h6⟩ :=
    walkInsertStmtForTable_found X e (emptyInsertStmt δ) { Name := CIStr.zero } tableName table g
      rfl h
  have hlen : node1.Columns.length =
      (table.Columns.filter (fun c => decide (c.Column ≠ "id"))).length := by
    rw [h2]; simp [emptyInsertStmt]
  refine ⟨node1, g1, _, h1, ?_, hlen, ?_, ?_⟩
  · intro c hc
    rw [h2] at hc
    simp only [emptyInsertStmt, List.nil_append, List.mem_map, List.mem_filter] at hc
    obtain ⟨col, ⟨_, hcol⟩, rfl⟩ := hc
    simpa [NewCIStr] using hcol
  · intro row hrow
    rw [h3] at hrow
    simp only [emptyInsertStmt, List.nil_append] at hrow
    obtain ⟨g0, rfl⟩ := h6 row hrow
    rw [rowOf_length, hlen]
  · intro hcount
    rw [hlen]
    have hsplit := List.length_eq_countP_add_countP (fun c : Column => decide (c.Column = "id"))
      table.Columns
    have hfilter : (table.Columns.filter (fun c => decide (c.Column ≠ "id"))).length =
        table.Columns.countP (fun c => !decide (c.Column = "id")) := by
      rw [List.countP_eq_length_filter]
      congr 1
      apply List.filter_congr
      intro c _
      simp
    rw [hfilter]
    simp only [Bool.not_eq_true, Bool.decide_eq_false] at hsplit
    omega

/-- Witness for C4 (amended) on the sample catalog. -/
theorem walkInsertStmtForTable_columns_witness :
    ∃ node1 g1 r,
      walkInsertStmtForTable sampleExternals sampleExecutor (emptyInsertStmt Nat)
        "table_int_text" [3, 0, 5, 1, 7] = some (node1, g1, r) ∧
      (∀ c ∈ node1.Columns, c.Name.O ≠ "id") ∧
      node1.Columns.length =
        (sampleTable.Columns.filter (fun c => decide (c.Column ≠ "id"))).length ∧
      (∀ row ∈ node1.Lists, row.length = node1.Columns.length) ∧
      (sampleTable.Columns.countP (fun c => decide (c.Column = "id")) = 1 →
        (node1.Columns.length : Int) = (sampleTable.Columns.length : Int) - 1) :=
  walkInsertStmtForTable_columns sampleExternals sampleExecutor "table_int_text" sampleTable
    [3, 0, 5, 1, 7] (by decide)

/-- C4 fails as stated: for a catalog table with the single column `col_int` (no `id`), the
column list built on an empty shell has one entry, not (column count − 1) = 0 entries. -/
theorem walkInsertStmtForTable_columns_counterexample :
    ∃ node1 g1 r,
      walkInsertStmtForTable sampleExternals { tables := [("t", tableWithoutId)] }
        (emptyInsertStmt Nat) "t" [] = some (node1, g1, r) ∧
      node1.Columns.length = 1 ∧
      (node1.Columns.length : Int) ≠ (tableWithoutId.Columns.length : Int) - 1 :=
  ⟨_, _, _, rfl, by decide, by decide⟩

/-- C5: for every table and every random tape, each value row appended by `walkLists` for the
insertable columns returned by `walkColumns` has one expression per insertable column, in the
same order: the expression at a position is the null expression or a value generated for the
insertable column at that position. -/
theorem walkLists_row_shape {δ : Type} (X : Externals δ) (columns0 : List ColumnName)
    (table : Table) (lists : List (List (ExprNode δ))) (g : Rng) :
    ∃ rows g1,
      walkLists X lists (walkColumns columns0 table.Columns).2 g = some (lists ++ rows, g1) ∧
      ∀ row ∈ rows,
        row.length = (walkColumns columns0 table.Columns).2.length ∧
        List.Forall₂
          (fun column x => x = NewValueExpr none ∨
            ∃ g0, x = NewValueExpr (some (X.GenerateEnumDataItem column g0).1))
          (walkColumns columns0 table.Columns).2 row := by
  obtain ⟨rows, g1, h1, _, h3⟩ :=
    walkLists_eq X lists (walkColumns columns0 table.Columns).2 g
  refine ⟨rows, g1, h1, ?_⟩
  intro row hrow
  obtain ⟨g0, rfl⟩ := h3 row hrow
  have hcols : (walkColumns columns0 table.Columns).2.filter
      (fun c => decide (c.Column ≠ "id")) = (walkColumns columns0 table.Columns).2 := by
    rw [walkColumns_eq]
    exact filter_filter_ne_id table.Columns
  rw [hcols]
  exact ⟨rowOf_length X _ g0, rowOf_forall₂ X _ g0⟩

/-- C6: given that `RdRange(10,20)` returns a value in the inclusive range [10,20], the number of
rows `walkLists` appends is that value, and the INSERT built by `walkInsertStmtForTable` on an
empty shell for a table of the catalog has that many rows, between 10 and 20. -/
theorem walkLists_row_count {δ : Type} (X : Externals δ) (lists : List (List (ExprNode δ)))
    (columns : List Column) (e : Executor) (tableName : String) (table : Table) (g : Rng)
    (hlook : e.tables.lookup tableName = some table)
    (h : 10 ≤ (X.RdRange 10 20 g).1 ∧ (X.RdRange 10 20 g).1 ≤ 20) :
    (∃ rows g1,
      walkLists X lists columns g = some (lists ++ rows, g1) ∧
      (rows.length : Int) = (X.RdRange 10 20 g).1 ∧ 10 ≤ rows.length ∧ rows.length ≤ 20) ∧
    ∃ node1 g1 r,
      walkInsertStmtForTable X e (emptyInsertStmt δ) tableName g = some (node1, g1, r) ∧
      (node1.Lists.length : Int) = (X.RdRange 10 20 g).1 ∧
      10 ≤ node1.Lists.length ∧ node1.Lists.length ≤ 20 := by
  constructor
  · obtain ⟨rows, g1, h1, h2, _⟩ := walkLists_eq X lists columns g
    refine ⟨rows, g1, h1, ?_, ?_, ?_⟩ <;> omega
  · obtain ⟨node1, g1, rows, h1, _, h3, _, h5, _⟩ :=
      walkInsertStmtForTable_found X e (emptyInsertStmt δ) { Name := CIStr.zero } tableName
        table g rfl hlook
    have hlen : node1.Lists.length = rows.length := by
      rw [h3]; simp [emptyInsertStmt]
    refine ⟨node1, g1, _, h1, ?_, ?_, ?_⟩ <;> omega

/-- Witness for C6 on the sample collaborators, whose `RdRange(10,20)` yields 13 on this tape. -/
theorem walkLists_row_count_witness :
    (∃ rows g1,
      walkLists sampleExternals [] sampleTable.Columns [3, 0, 5, 1, 7] = some ([] ++ rows, g1) ∧
      (rows.length : Int) = (sampleExternals.RdRange 10 20 [3, 0, 5, 1, 7]).1 ∧
      10 ≤ rows.length ∧ rows.length ≤ 20) ∧
    ∃ node1 g1 r,
      walkInsertStmtForTable sampleExternals sampleExecutor (emptyInsertStmt Nat)
        "table_int_text" [3, 0, 5, 1, 7] = some (node1, g1, r) ∧
      (node1.Lists.length : Int) = (sampleExternals.RdRange 10 20 [3, 0, 5, 1, 7]).1 ∧
      10 ≤ node1.Lists.length ∧ node1.Lists.length ≤ 20 :=
  walkLists_row_count sampleExternals [] sampleTable.Columns sampleExecutor "table_int_text"
    sampleTable [3, 0, 5, 1, 7] (by decide) (by decide)

/-! ## Index synthesizer: results -/

theorem MinInt_eq_min (a b : Int) : MinInt a b = min a b := by
  unfold MinInt
  split <;> omega

/-- The snapshot taken by `randTable` is the list of the catalog's tables, in iteration order. -/
theorem randTable_snapshot (e : Executor) :
    e.tables.foldl (fun acc kv => acc ++ [kv.2]) ([] : List Table) = e.tables.map Prod.snd := by
  rw [foldl_append_singleton Prod.snd]; simp

theorem randTable_nonempty (e : Executor) (g : Rng) (h : e.tables ≠ []) :
    ∃ table, randTable e g = some (some table, g.tail) ∧ table ∈ e.tables.map Prod.snd ∧
      (e.tables.map Prod.snd)[(((g.headD 0 : Nat) : Int) %
        ((e.tables.map Prod.snd).length : Int)).toNat]? = some table := by
  have hlen : 0 < (e.tables.map Prod.snd).length := by
    cases hT : e.tables with
    | nil => exact absurd hT h
    | cons a l => simp
  have hpos : (0 : Int) < ((e.tables.map Prod.snd).length : Int) := by omega
  have hlt : (((g.headD 0 : Nat) : Int) % ((e.tables.map Prod.snd).length : Int)).toNat <
      (e.tables.map Prod.snd).length := by
    have h1 := Int.emod_lt_of_pos ((g.headD 0 : Nat) : Int) hpos
    have h2 := Int.emod_nonneg ((g.headD 0 : Nat) : Int) (ne_of_gt hpos)
    omega
  refine ⟨(e.tables.map Prod.snd)[(((g.headD 0 : Nat) : Int) %
      ((e.tables.map Prod.snd).length : Int)).toNat], ?_, List.getElem_mem _, ?_⟩
  · unfold randTable
    simp only [randTable_snapshot]
    rw [if_neg (by omega), Rd_pos _ g hpos]
    simp only [List.getElem?_eq_getElem hlt]
  · exact List.getElem?_eq_getElem hlt

/-- Every iteration of the column loop of `walkDDLCreateIndex` yields a length (or none) without
a runtime failure. -/
theorem indexPartLength_total (column : Column) (g : Rng) :
    ∃ len g1, indexPartLength column g = some (len, g1) := by
  unfold indexPartLength
  split
  · rw [Rd_pos 31 g (by decide)]; exact ⟨_, _, rfl⟩
  · split
    · split
      · rename_i hlen
        have hpos : 0 < MinInt column.DataLen 32 - 1 := by
          rw [MinInt_eq_min]; omega
        simp only []
        rw [Rd_pos _ g hpos]; exact ⟨_, _, rfl⟩
      · exact ⟨_, _, rfl⟩
    · exact ⟨_, _, rfl⟩

/-- The part list built by the column loop: one part per column, in column order, appended to
the parts already present. -/
theorem indexPartsLoop_eq (columns : List Column) (g : Rng) :
    ∃ full g1,
      (∀ parts, indexPartsLoop columns parts g = some (parts ++ full, g1)) ∧
      List.Forall₂
        (fun column part => ∃ len,
          part = { Column := { Name := NewCIStr (indexPartName column len) } })
        columns full := by
  induction columns generalizing g with
  | nil => exact ⟨[], g, by simp [indexPartsLoop], List.Forall₂.nil⟩
  | cons c cs ih =>
    obtain ⟨len, g1, hlen⟩ := indexPartLength_total c g
    obtain ⟨full, g2, hfull, hrel⟩ := ih g1
    refine ⟨{ Column := { Name := NewCIStr (indexPartName c len) } } :: full, g2, ?_,
      List.Forall₂.cons ⟨len, rfl⟩ hrel⟩
    intro parts
    simp [indexPartsLoop, indexPart, hlen, hfull]

/-- What `walkDDLCreateIndex` leaves and returns on a non-empty catalog: the chosen table, the
full part list `full` of the column loop, and the truncation. -/
theorem walkDDLCreateIndex_nonempty {δ : Type} (X : Externals δ) (e : Executor)
    (node : CreateIndexStmt) (g : Rng) (h : e.tables ≠ []) :
    ∃ table full g3 node1 g4,
      randTable e g = some (some table, g.tail) ∧ table ∈ e.tables.map Prod.snd ∧
      (∀ parts, indexPartsLoop table.Columns parts (X.RdStringChar 5 g.tail).2 =
        some (parts ++ full, g3)) ∧
      List.Forall₂
        (fun column part => ∃ len,
          part = { Column := { Name := NewCIStr (indexPartName column len) } })
        table.Columns full ∧
      walkDDLCreateIndex X e node g = some (node1, g4, X.BufferOutCreateIndex node1) ∧
      (10 < (node.IndexPartSpecifications ++ full).length →
        Rd 10 g3 = some (((g3.headD 0 : Nat) : Int) % 10, g4) ∧
        node1.IndexPartSpecifications = (node.IndexPartSpecifications ++ full).take
          ((((g3.headD 0 : Nat) : Int) % 10 + 1).toNat)) ∧
      (¬ 10 < (node.IndexPartSpecifications ++ full).length →
        node1.IndexPartSpecifications = node.IndexPartSpecifications ++ full) := by
  obtain ⟨table, htable, hmem, _⟩ := randTable_nonempty e g h
  obtain ⟨full, g3, hfull, hrel⟩ := indexPartsLoop_eq table.Columns (X.RdStringChar 5 g.tail).2
  by_cases hlen : 10 < (node.IndexPartSpecifications ++ full).length
  · have hslice : sliceTo (node.IndexPartSpecifications ++ full)
        (((g3.headD 0 : Nat) : Int) % 10 + 1) =
        some ((node.IndexPartSpecifications ++ full).take
          ((((g3.headD 0 : Nat) : Int) % 10 + 1).toNat)) := by
      unfold sliceTo
      rw [if_pos]
      constructor <;> omega
    refine ⟨table, full, g3,
      { IndexName := (X.RdStringChar 5 g.tail).1, Table := { Name := NewCIStr table.Table },
        IndexPartSpecifications := (node.IndexPartSpecifications ++ full).take
          ((((g3.headD 0 : Nat) : Int) % 10 + 1).toNat) },
      g3.tail, htable, hmem, hfull, hrel, ?_, ?_, ?_⟩
    · unfold walkDDLCreateIndex
      simp only [htable, hfull, gt_iff_lt, hlen, if_true, Rd_pos 10 g3 (by decide), hslice]
    · intro _
      exact ⟨Rd_pos 10 g3 (by decide), rfl⟩
    · intro hn
      exact absurd hlen hn
  · refine ⟨table, full, g3,
      { IndexName := (X.RdStringChar 5 g.tail).1, Table := { Name := NewCIStr table.Table },
        IndexPartSpecifications := node.IndexPartSpecifications ++ full },
      g3, htable, hmem, hfull, hrel, ?_, ?_, ?_⟩
    · unfold walkDDLCreateIndex
      simp only [htable, hfull, gt_iff_lt, hlen, if_false]
    · intro hn
      exact absurd hn hlen
    · intro _
      rfl

/-- C7: for every non-empty catalog, every statement shell and every random tape,
`walkDDLCreateIndex` completes and leaves at most 10 index parts on the statement. -/
theorem walkDDLCreateIndex_at_most_ten {δ : Type} (X : Externals δ) (e : Executor)
    (node : CreateIndexStmt) (g : Rng) (h : e.tables ≠ []) :
    ∃ node1 g1 r,
      walkDDLCreateIndex X e node g = some (node1, g1, r) ∧
      node1.IndexPartSpecifications.length ≤ 10 := by
  obtain ⟨table, full, g3, node1, g4, _, _, _, _, hrun, hgt, hle⟩ :=
    walkDDLCreateIndex_nonempty X e node g h
  refine ⟨node1, g4, _, hrun, ?_⟩
  by_cases hlen : 10 < (node.IndexPartSpecifications ++ full).length
  · rw [(hgt hlen).2, List.length_take]
    omega
  · rw [hle hlen]
    omega

/-- Witness for C7: a catalog holding the twelve-column table. -/
theorem walkDDLCreateIndex_at_most_ten_witness :
    ∃ node1 g1 r,
      walkDDLCreateIndex sampleExternals { tables := [("wide", wideTable)] }
        emptyCreateIndexStmt [0, 1, 2, 3, 4, 5, 6, 7] = some (node1, g1, r) ∧
      node1.IndexPartSpecifications.length ≤ 10 :=
  walkDDLCreateIndex_at_most_ten sampleExternals { tables := [("wide", wideTable)] }
    emptyCreateIndexStmt [0, 1, 2, 3, 4, 5, 6, 7] (by decide)

/-- C8: on a non-empty catalog and an empty shell, the parts left by `walkDDLCreateIndex` are the
leading parts, in column order, of the list `full` that the column loop builds with one part
per column of the table chosen by `randTable`. For a table of more than 10 columns they are the first
K = Rd(10)+1 parts with 1 ≤ K ≤ 10; for a table of at most 10 columns they are all of `full`. -/
theorem walkDDLCreateIndex_leading_parts {δ : Type} (X : Externals δ) (e : Executor) (g : Rng)
    (h : e.tables ≠ []) :
    ∃ table full g3 node1 g4 r,
      randTable e g = some (some table, g.tail) ∧
      table ∈ e.tables.map Prod.snd ∧
      indexPartsLoop table.Columns [] (X.RdStringChar 5 g.tail).2 = some (full, g3) ∧
      full.length = table.Columns.length ∧
      List.Forall₂
        (fun column part => ∃ len,
          part = { Column := { Name := NewCIStr (indexPartName column len) } })
        table.Columns full ∧
      walkDDLCreateIndex X e emptyCreateIndexStmt g = some (node1, g4, r) ∧
      node1.IndexPartSpecifications <+: full ∧
      (10 < table.Columns.length →
        ∃ k, Rd 10 g3 = some (k, g4) ∧ 1 ≤ k + 1 ∧ k + 1 ≤ 10 ∧
          (node1.IndexPartSpecifications.length : Int) = k + 1 ∧
          node1.IndexPartSpecifications = full.take (k + 1).toNat) ∧
      (table.Columns.length ≤ 10 → node1.IndexPartSpecifications = full) := by
  obtain ⟨table, full, g3, node1, g4, htable, hmem, hfull, hrel, hrun, hgt, hle⟩ :=
    walkDDLCreateIndex_nonempty X e emptyCreateIndexStmt g h
  have hlen : full.length = table.Columns.length := hrel.length_eq.symm
  have hnil : emptyCreateIndexStmt.IndexPartSpecifications ++ full = full := rfl
  rw [hnil] at hgt hle
  refine ⟨table, full, g3, node1, g4, _, htable, hmem, ?_, hlen, hrel, hrun, ?_, ?_, ?_⟩
  · simpa using hfull []
  · by_cases hc : 10 < full.length
    · rw [(hgt hc).2]
      exact ⟨full.drop _, List.take_append_drop _ full⟩
    · rw [hle hc]
  · intro hc
    rw [← hlen] at hc
    obtain ⟨hrd, hparts⟩ := hgt hc
    refine ⟨_, hrd, ?_, ?_, ?_, hparts⟩
    · omega
    · omega
    · rw [hparts, List.length_take]
      omega
  · intro hc
    rw [← hlen] at hc
    exact hle (by omega)

/-- Witness for C8: on a catalog holding the twelve-column table the statement is left with the
leading K parts of the twelve. -/
theorem walkDDLCreateIndex_leading_parts_witness :
    ∃ table full g3 node1 g4 r,
      randTable { tables := [("wide", wideTable)] } [0, 1, 2, 3, 4, 5, 6, 7] =
        some (some table, [1, 2, 3, 4, 5, 6, 7]) ∧
      table ∈ [("wide", wideTable)].map Prod.snd ∧
      indexPartsLoop table.Columns []
        (sampleExternals.RdStringChar 5 [1, 2, 3, 4, 5, 6, 7]).2 = some (full, g3) ∧
      full.length = table.Columns.length ∧
      List.Forall₂
        (fun column part => ∃ len,
          part = { Column := { Name := NewCIStr (indexPartName column len) } })
        table.Columns full ∧
      walkDDLCreateIndex sampleExternals { tables := [("wide", wideTable)] }
        emptyCreateIndexStmt [0, 1, 2, 3, 4, 5, 6, 7] = some (node1, g4, r) ∧
      node1.IndexPartSpecifications <+: full ∧
      (10 < table.Columns.length →
        ∃ k, Rd 10 g3 = some (k, g4) ∧ 1 ≤ k + 1 ∧ k + 1 ≤ 10 ∧
          (node1.IndexPartSpecifications.length : Int) = k + 1 ∧
          node1.IndexPartSpecifications = full.take (k + 1).toNat) ∧
      (table.Columns.length ≤ 10 → node1.IndexPartSpecifications = full) :=
  walkDDLCreateIndex_leading_parts sampleExternals { tables := [("wide", wideTable)] }
    [0, 1, 2, 3, 4, 5, 6, 7] (by decide)

theorem varchar_ne_text (column : Column) (hv : column.DataType = "varchar") :
    column.DataType ≠ "text" := by
  rw [hv]; decide

theorem indexPartLength_text (column : Column) (g : Rng) (ht : column.DataType = "text") :
    indexPartLength column g = some (some (((g.headD 0 : Nat) : Int) % 31 + 1), g.tail) := by
  unfold indexPartLength
  rw [if_pos ht, Rd_pos 31 g (by decide)]

theorem indexPartLength_varchar_long (column : Column) (g : Rng)
    (hv : column.DataType = "varchar") (hl : column.DataLen > 1) :
    indexPartLength column g =
      some (some (((g.headD 0 : Nat) : Int) % (min column.DataLen 32 - 1) + 1), g.tail) := by
  have hpos : 0 < min column.DataLen 32 - 1 := by omega
  unfold indexPartLength
  rw [if_neg (varchar_ne_text column hv), if_pos hv, if_pos hl]
  simp only [MinInt_eq_min, Rd_pos _ g hpos]

theorem indexPartLength_varchar_short (column : Column) (g : Rng)
    (hv : column.DataType = "varchar") (hl : ¬ column.DataLen > 1) :
    indexPartLength column g = some (some 1, g) := by
  unfold indexPartLength
  rw [if_neg (varchar_ne_text column hv), if_pos hv, if_neg hl]

theorem indexPart_of_length (column : Column) (g g1 : Rng) (L : Int)
    (h : indexPartLength column g = some (some L, g1)) :
    indexPart column g =
      some ({ Column := { Name := NewCIStr (sprintfNameLen column.Column L) } }, g1) := by
  simp only [indexPart, h, indexPartName]

/-- C9 (amended): for every column and every random tape, the length L that the column loop of
`walkDDLCreateIndex` writes into the part name satisfies, for a `varchar` column, 1 ≤ L, and
L ≤ min(declaredLength, 32) when the declared length is at least 1, and L = 1 when the declared
length is at most 1; for a `text` column, 1 ≤ L ≤ 31. -/
theorem indexPart_length_bounds (column : Column) (g : Rng) :
    (column.DataType = "varchar" →
      ∃ L g1, indexPartLength column g = some (some L, g1) ∧
        indexPart column g =
          some ({ Column := { Name := NewCIStr (sprintfNameLen column.Column L) } }, g1) ∧
        1 ≤ L ∧ (1 ≤ column.DataLen → L ≤ min column.DataLen 32) ∧
        (column.DataLen ≤ 1 → L = 1)) ∧
    (column.DataType = "text" →
      ∃ L g1, indexPartLength column g = some (some L, g1) ∧
        indexPart column g =
          some ({ Column := { Name := NewCIStr (sprintfNameLen column.Column L) } }, g1) ∧
        1 ≤ L ∧ L ≤ 31) := by
  constructor
  · intro hv
    by_cases hl : column.DataLen > 1
    · have hlen := indexPartLength_varchar_long column g hv hl
      have hpos : 0 < min column.DataLen 32 - 1 := by omega
      have h1 := Int.emod_lt_of_pos ((g.headD 0 : Nat) : Int) hpos
      have h2 := Int.emod_nonneg ((g.headD 0 : Nat) : Int) (ne_of_gt hpos)
      refine ⟨_, _, hlen, indexPart_of_length column g _ _ hlen, ?_, ?_, ?_⟩
      · omega
      · intro _; omega
      · intro hle; omega
    · have hlen := indexPartLength_varchar_short column g hv hl
      refine ⟨_, _, hlen, indexPart_of_length column g _ _ hlen, ?_, ?_, ?_⟩
      · omega
      · intro hge; omega
      · intro _; rfl
  · intro ht
    have hlen := indexPartLength_text column g ht
    have h1 := Int.emod_lt_of_pos ((g.headD 0 : Nat) : Int) (by decide : (0 : Int) < 31)
    have h2 := Int.emod_nonneg ((g.headD 0 : Nat) : Int) (by decide : (31 : Int) ≠ 0)
    refine ⟨_, _, hlen, indexPart_of_length column g _ _ hlen, ?_, ?_⟩
    · omega
    · omega

/-- Witness for C9 (amended): a `varchar(2)` column and a `text` column. -/
theorem indexPart_length_bounds_witness :
    (∃ L g1, indexPartLength varcharTwo [7] = some (some L, g1) ∧
        indexPart varcharTwo [7] =
          some ({ Column := { Name := NewCIStr (sprintfNameLen varcharTwo.Column L) } }, g1) ∧
        1 ≤ L ∧ (1 ≤ varcharTwo.DataLen → L ≤ min varcharTwo.DataLen 32) ∧
        (varcharTwo.DataLen ≤ 1 → L = 1)) ∧
    (∃ L g1, indexPartLength textColumn [7] = some (some L, g1) ∧
        indexPart textColumn [7] =
          some ({ Column := { Name := NewCIStr (sprintfNameLen textColumn.Column L) } }, g1) ∧
        1 ≤ L ∧ L ≤ 31) :=
  ⟨(indexPart_length_bounds varcharTwo [7]).1 (by decide),
    (indexPart_length_bounds textColumn [7]).2 (by decide)⟩

/-- C9 fails as stated: for a `varchar(0)` column the length written is 1, as the part name
`c(1)` left by `walkDDLCreateIndex` shows, which is above min(declaredLength, 32) = 0. -/
theorem indexPart_length_bounds_counterexample :
    indexPartLength varcharZero [] = some (some 1, []) ∧
    (walkDDLCreateIndex sampleExternals
        { tables := [("t", { Table := "t", Columns := [varcharZero] })] }
        emptyCreateIndexStmt []).map
      (fun r => r.1.IndexPartSpecifications.map (fun part => part.Column.Name.O)) =
      some ["c(1)"] ∧
    ¬ ((1 : Int) ≤ min varcharZero.DataLen 32) := by
  refine ⟨by decide, by decide, by decide⟩

/-- C10 (what the code does): for a `varchar` column of declared length above 1, the lengths the
column loop of `walkDDLCreateIndex` can produce over all random tapes are exactly those of
[1, min(declaredLength, 32) − 1]; the maximum min(declaredLength, 32) is never produced. -/
theorem indexPartLength_varchar_image (column : Column) (L : Int)
    (hv : column.DataType = "varchar") (hl : column.DataLen > 1) :
    ((∃ g g1, indexPartLength column g = some (some L, g1)) ↔
      1 ≤ L ∧ L ≤ min column.DataLen 32 - 1) ∧
    ¬ ∃ g g1, indexPartLength column g = some (some (min column.DataLen 32), g1) := by
  have hpos : 0 < min column.DataLen 32 - 1 := by omega
  have hbound : ∀ (M : Int) (g g1 : Rng), indexPartLength column g = some (some M, g1) →
      1 ≤ M ∧ M ≤ min column.DataLen 32 - 1 := by
    intro M g g1 hg
    rw [indexPartLength_varchar_long column g hv hl] at hg
    simp only [Option.some.injEq, Prod.mk.injEq] at hg
    have h1 := Int.emod_lt_of_pos ((g.headD 0 : Nat) : Int) hpos
    have h2 := Int.emod_nonneg ((g.headD 0 : Nat) : Int) (ne_of_gt hpos)
    omega
  refine ⟨⟨?_, ?_⟩, ?_⟩
  · rintro ⟨g, g1, hg⟩
    exact hbound L g g1 hg
  · rintro ⟨h1, h2⟩
    refine ⟨[(L - 1).toNat], [], ?_⟩
    rw [indexPartLength_varchar_long column _ hv hl]
    have hcast : (((L - 1).toNat : Nat) : Int) = L - 1 := Int.toNat_of_nonneg (by omega)
    have hmod : (L - 1) % (min column.DataLen 32 - 1) = L - 1 :=
      Int.emod_eq_of_lt (by omega) (by omega)
    simp only [List.headD_cons, List.tail_cons, hcast, hmod]
    simp
  · rintro ⟨g, g1, hg⟩
    have := hbound _ g g1 hg
    omega

/-- Witness for C10 on a `varchar(2)` column: length 2 is produced by no random tape. -/
theorem indexPartLength_varchar_image_witness :
    ((∃ g g1, indexPartLength varcharTwo g = some (some 2, g1)) ↔
      1 ≤ (2 : Int) ∧ (2 : Int) ≤ min varcharTwo.DataLen 32 - 1) ∧
    ¬ ∃ g g1, indexPartLength varcharTwo g = some (some (min varcharTwo.DataLen 32), g1) :=
  indexPartLength_varchar_image varcharTwo 2 (by decide) (by decide)

/-! ## Type mapper and table columns: results -/

/-- C11: `Type2Tp` maps the six named types to LONG, VARCHAR, TIMESTAMP, DATETIME, BLOB and
FLOAT, and every other string (the empty string and `INT` among them) to the NULL code; the
six codes and the NULL code are pairwise distinct. -/
theorem Type2Tp_table :
    Type2Tp "int" = mysql.TypeLong ∧ Type2Tp "varchar" = mysql.TypeVarchar ∧
    Type2Tp "timestamp" = mysql.TypeTimestamp ∧ Type2Tp "datetime" = mysql.TypeDatetime ∧
    Type2Tp "text" = mysql.TypeBlob ∧ Type2Tp "float" = mysql.TypeFloat ∧
    (∀ t : String, t ≠ "int" → t ≠ "varchar" → t ≠ "timestamp" → t ≠ "datetime" →
      t ≠ "text" → t ≠ "float" → Type2Tp t = mysql.TypeNull) ∧
    Type2Tp "" = mysql.TypeNull ∧ Type2Tp "INT" = mysql.TypeNull ∧
    [Type2Tp "int", Type2Tp "varchar", Type2Tp "timestamp", Type2Tp "datetime",
      Type2Tp "text", Type2Tp "float", mysql.TypeNull].Nodup := by
  refine ⟨by decide, by decide, by decide, by decide, by decide, by decide, ?_, by decide,
    by decide, by decide⟩
  intro t h1 h2 h3 h4 h5 h6
  simp [Type2Tp, h1, h2, h3, h4, h5, h6]

/-- C15: on an empty shell, the column definitions after `id` follow `colTypes` one for one in
the same order: the definition at position i+1 is named `"col_" ++ colTypes[i]`, has type code
`Type2Tp colTypes[i]` and declared length `dataType2Len colTypes[i]`, and has no options. -/
theorem walkDDLCreateTable_type_columns {δ : Type} (X : Externals δ) (colTypes : List String) :
    (walkDDLCreateTable X emptyCreateTableStmt colTypes).1.Cols.tail =
        colTypes.map (fun t =>
          { Name := { Name := NewCIStr ("col_" ++ t) },
            Tp := { Tp := Type2Tp t, Flen := X.dataType2Len t, Decimal := UnspecifiedLength },
            Options := [] }) ∧
    ∀ i : Nat,
      (walkDDLCreateTable X emptyCreateTableStmt colTypes).1.Cols[i + 1]? =
        colTypes[i]?.map (fun t =>
          { Name := { Name := NewCIStr ("col_" ++ t) },
            Tp := { Tp := Type2Tp t, Flen := X.dataType2Len t, Decimal := UnspecifiedLength },
            Options := [] }) := by
  rw [walkDDLCreateTable_node]
  constructor
  · rfl
  · intro i
    simp only [emptyCreateTableStmt, List.nil_append, List.getElem?_cons_succ,
      List.getElem?_map]
    rfl

theorem col_name_injective : Function.Injective (fun t : String => "col_" ++ t) := by
  intro a b h
  have h2 := congrArg String.data h
  simp only [String.data_append] at h2
  exact String.ext (List.append_cancel_left h2)

/-- C20: on an empty shell, the column names of the table built by `walkDDLCreateTable` are
pairwise distinct exactly when `colTypes` has no duplicate entry; for `["int", "int"]` the names
are `id`, `col_int`, `col_int`. -/
theorem walkDDLCreateTable_names_nodup {δ : Type} (X : Externals δ) (colTypes : List String) :
    (((walkDDLCreateTable X emptyCreateTableStmt colTypes).1.Cols.map
        (fun c => c.Name.Name.O)).Nodup ↔ colTypes.Nodup) ∧
    (walkDDLCreateTable X emptyCreateTableStmt ["int", "int"]).1.Cols.map
        (fun c => c.Name.Name.O) = ["id", "col_int", "col_int"] := by
  have hnames : ∀ l : List String,
      (walkDDLCreateTable X emptyCreateTableStmt l).1.Cols.map (fun c => c.Name.Name.O) =
        "id" :: l.map (fun t => "col_" ++ t) := by
    intro l
    rw [walkDDLCreateTable_node]
    simp [emptyCreateTableStmt, NewCIStr, colDefOf, Function.comp_def]
  constructor
  · rw [hnames, List.nodup_cons, List.nodup_map_iff col_name_injective]
    constructor
    · exact fun h => h.2
    · intro h
      refine ⟨?_, h⟩
      intro hmem
      obtain ⟨t, _, ht⟩ := List.mem_map.1 hmem
      exact col_name_ne_id t ht
  · rw [hnames]
    decide

/-- C16: the descriptors returned by `walkColumns` are the table's columns not named `id`, in
table order, and the names appended to the statement are those columns' names in the same
order, each qualified by its column's table name. -/
theorem walkColumns_insertable (columns : List ColumnName) (table : Table) :
    (walkColumns columns table.Columns).2 =
        table.Columns.filter (fun c => decide (c.Column ≠ "id")) ∧
    (walkColumns columns table.Columns).1 =
        columns ++ (table.Columns.filter (fun c => decide (c.Column ≠ "id"))).map
          (fun c => { Table := NewCIStr c.Table, Name := NewCIStr c.Column }) ∧
    ((walkColumns columns table.Columns).1.drop columns.length).map (fun n => n.Name.O) =
        (table.Columns.filter (fun c => decide (c.Column ≠ "id"))).map (fun c => c.Column) ∧
    ((walkColumns columns table.Columns).1.drop columns.length).map (fun n => n.Table.O) =
        (table.Columns.filter (fun c => decide (c.Column ≠ "id"))).map (fun c => c.Table) := by
  rw [walkColumns_eq]
  refine ⟨rfl, rfl, ?_, ?_⟩ <;> simp [NewCIStr, Function.comp_def]

/-! ## Error paths: results -/

theorem lookup_none_iff_not_key (e : Executor) (tableName : String) :
    e.tables.lookup tableName = none ↔ tableName ∉ e.tables.map Prod.fst := by
  rw [List.lookup_eq_none_iff]
  simp only [List.mem_map, not_exists, not_and, bne_iff_ne, ne_eq]
  constructor
  · intro h p hp heq
    exact h p hp heq.symm
  · intro h p hp heq
    exact h p hp heq.symm

/-- The result of `walkInsertStmtForTable` for a name that is not in the catalog, on any
statement. -/
theorem walkInsertStmtForTable_absent {δ : Type} (X : Externals δ) (e : Executor)
    (node : InsertStmt δ) (tableName : String) (g : Rng)
    (h : e.tables.lookup tableName = none) :
    walkInsertStmtForTable X e node tableName g =
      some (node, g, Except.error ("table " ++ tableName ++ " not exist")) := by
  unfold walkInsertStmtForTable
  simp only [h]

/-- C12 (amended): when `tableName` is not a key of the catalog, `walkInsertStmtForTable`
returns the error `table <tableName> not exist` without text, leaves the statement unchanged
and makes no draw, on every statement shell. On a shell whose insert target is a table name it
completes, and it returns an error if and only if `tableName` is not a key of the catalog or
the printer returns an error. -/
theorem walkInsertStmtForTable_fails_iff {δ : Type} (X : Externals δ) (e : Executor)
    (node : InsertStmt δ) (tableName : String) (g : Rng) :
    (tableName ∉ e.tables.map Prod.fst →
      walkInsertStmtForTable X e node tableName g =
        some (node, g, Except.error ("table " ++ tableName ++ " not exist"))) ∧
    (∀ t : TableName, node.Table.TableRefs.Left = ResultSetNode.tableName t →
      ∃ node1 g1 r,
        walkInsertStmtForTable X e node tableName g = some (node1, g1, r) ∧
        ((∃ err, r = Except.error err) ↔
          (tableName ∉ e.tables.map Prod.fst ∨
            ∃ err, X.BufferOutInsert node1 = Except.error err))) := by
  constructor
  · intro hkey
    exact walkInsertStmtForTable_absent X e node tableName g
      ((lookup_none_iff_not_key e tableName).2 hkey)
  · intro t hnode
    cases hlook : e.tables.lookup tableName with
    | none =>
      refine ⟨node, g, _, walkInsertStmtForTable_absent X e node tableName g hlook, ?_⟩
      constructor
      · intro _
        exact Or.inl ((lookup_none_iff_not_key e tableName).1 hlook)
      · intro _
        exact ⟨_, rfl⟩
    | some table =>
      obtain ⟨node1, g1, _, h1, _⟩ :=
        walkInsertStmtForTable_found X e node t tableName table g hnode hlook
      refine ⟨node1, g1, _, h1, ?_⟩
      constructor
      · intro h
        exact Or.inr h
      · rintro (hkey | h)
        · rw [(lookup_none_iff_not_key e tableName).2 hkey] at hlook
          exact absurd hlook (by simp)
        · exact h

/-- Witness for C12 (amended): a name missing from the sample catalog, and the empty shell. -/
theorem walkInsertStmtForTable_fails_iff_witness :
    walkInsertStmtForTable sampleExternals sampleExecutor (emptyInsertStmt Nat) "missing" [3] =
        some (emptyInsertStmt Nat, [3], Except.error ("table " ++ "missing" ++ " not exist")) ∧
    ∃ node1 g1 r,
      walkInsertStmtForTable sampleExternals sampleExecutor (emptyInsertStmt Nat) "missing" [3] =
        some (node1, g1, r) ∧
      ((∃ err, r = Except.error err) ↔
        ("missing" ∉ sampleExecutor.tables.map Prod.fst ∨
          ∃ err, sampleExternals.BufferOutInsert node1 = Except.error err)) :=
  ⟨(walkInsertStmtForTable_fails_iff sampleExternals sampleExecutor (emptyInsertStmt Nat)
      "missing" [3]).1 (by decide),
    (walkInsertStmtForTable_fails_iff sampleExternals sampleExecutor (emptyInsertStmt Nat)
      "missing" [3]).2 { Name := CIStr.zero } rfl⟩

/-- C12 fails as stated: on a shell whose insert target is not a table name the call fails at
the type assertion, although the table name is a key of the catalog and the printer never
returns an error. -/
theorem walkInsertStmtForTable_fails_iff_counterexample :
    walkInsertStmtForTable sampleExternals sampleExecutor shellWithoutTableName
        "table_int_text" [3, 0, 5] = none ∧
    "table_int_text" ∈ sampleExecutor.tables.map Prod.fst ∧
    ∀ n, sampleExternals.BufferOutInsert n = Except.ok "INSERT" :=
  ⟨rfl, by decide, fun _ => rfl⟩

theorem randTable_empty (e : Executor) (g : Rng) (h : e.tables = []) :
    randTable e g = some (none, g) := by
  unfold randTable
  simp [h]

theorem walkDDLCreateIndex_empty {δ : Type} (X : Externals δ) (e : Executor)
    (node : CreateIndexStmt) (g : Rng) (h : e.tables = []) :
    walkDDLCreateIndex X e node g = some (node, g, Except.error "no table available") := by
  unfold walkDDLCreateIndex
  simp only [randTable_empty e g h]

/-- On a non-empty catalog `walkDDLCreateIndex` completes, returns what the printer returns on
the statement it leaves, and that statement names the table chosen by `randTable`. -/
theorem walkDDLCreateIndex_table {δ : Type} (X : Externals δ) (e : Executor)
    (node : CreateIndexStmt) (g : Rng) (h : e.tables ≠ []) :
    ∃ table node1 g1,
      table ∈ e.tables.map Prod.snd ∧ randTable e g = some (some table, g.tail) ∧
      walkDDLCreateIndex X e node g = some (node1, g1, X.BufferOutCreateIndex node1) ∧
      node1.Table.Name = NewCIStr table.Table ∧
      node1.IndexName = (X.RdStringChar 5 g.tail).1 := by
  obtain ⟨table, htable, hmem, _⟩ := randTable_nonempty e g h
  obtain ⟨full, g3, hfull, _⟩ := indexPartsLoop_eq table.Columns (X.RdStringChar 5 g.tail).2
  by_cases hlen : 10 < (node.IndexPartSpecifications ++ full).length
  · have hslice : sliceTo (node.IndexPartSpecifications ++ full)
        (((g3.headD 0 : Nat) : Int) % 10 + 1) =
        some ((node.IndexPartSpecifications ++ full).take
          ((((g3.headD 0 : Nat) : Int) % 10 + 1).toNat)) := by
      unfold sliceTo
      rw [if_pos]
      constructor <;> omega
    refine ⟨table,
      { IndexName := (X.RdStringChar 5 g.tail).1, Table := { Name := NewCIStr table.Table },
        IndexPartSpecifications := (node.IndexPartSpecifications ++ full).take
          ((((g3.headD 0 : Nat) : Int) % 10 + 1).toNat) },
      g3.tail, hmem, htable, ?_, rfl, rfl⟩
    unfold walkDDLCreateIndex
    simp only [htable, hfull, gt_iff_lt, hlen, if_true, Rd_pos 10 g3 (by decide), hslice]
  · refine ⟨table,
      { IndexName := (X.RdStringChar 5 g.tail).1, Table := { Name := NewCIStr table.Table },
        IndexPartSpecifications := node.IndexPartSpecifications ++ full },
      g3, hmem, htable, ?_, rfl, rfl⟩
    unfold walkDDLCreateIndex
    simp only [htable, hfull, gt_iff_lt, hlen, if_false]

/-- C13: `randTable` returns no table exactly when the catalog is empty. On an empty catalog
`walkDDLCreateIndex` returns the error `no table available` without text, leaves the statement
unchanged and makes no draw. On a non-empty catalog it returns what the printer returns, on a
statement that names a table of the catalog; so, for a printer that does not itself produce
the message `no table available`, that error is returned if and only if the catalog is empty. -/
theorem walkDDLCreateIndex_no_table_iff {δ : Type} (X : Externals δ) (e : Executor)
    (node : CreateIndexStmt) (g : Rng) :
    ((∃ g1, randTable e g = some (none, g1)) ↔ e.tables = []) ∧
    (e.tables = [] →
      walkDDLCreateIndex X e node g = some (node, g, Except.error "no table available")) ∧
    (e.tables ≠ [] →
      ∃ table node1 g1,
        table ∈ e.tables.map Prod.snd ∧ randTable e g = some (some table, g.tail) ∧
        walkDDLCreateIndex X e node g = some (node1, g1, X.BufferOutCreateIndex node1) ∧
        node1.Table.Name = NewCIStr table.Table) ∧
    ((∀ n, X.BufferOutCreateIndex n ≠ Except.error "no table available") →
      ((∃ node1 g1, walkDDLCreateIndex X e node g =
          some (node1, g1, Except.error "no table available")) ↔ e.tables = [])) := by
  refine ⟨?_, walkDDLCreateIndex_empty X e node g, ?_, ?_⟩
  · constructor
    · rintro ⟨g1, hg1⟩
      by_contra hne
      obtain ⟨table, htable, _⟩ := randTable_nonempty e g hne
      rw [htable] at hg1
      simp at hg1
    · intro h
      exact ⟨g, randTable_empty e g h⟩
  · intro hne
    obtain ⟨table, node1, g1, hmem, htable, hrun, hname, _⟩ :=
      walkDDLCreateIndex_table X e node g hne
    exact ⟨table, node1, g1, hmem, htable, hrun, hname⟩
  · intro hprinter
    constructor
    · rintro ⟨node1, g1, hrun⟩
      by_contra hne
      obtain ⟨table, node2, g2, _, _, hrun2, _⟩ := walkDDLCreateIndex_table X e node g hne
      rw [hrun2] at hrun
      simp only [Option.some.injEq, Prod.mk.injEq] at hrun
      exact hprinter node2 hrun.2.2
    · intro h
      exact ⟨node, g, walkDDLCreateIndex_empty X e node g h⟩

/-- Witness for C13: the empty catalog, and the sample catalog with the sample printer. -/
theorem walkDDLCreateIndex_no_table_iff_witness :
    walkDDLCreateIndex sampleExternals { tables := [] } emptyCreateIndexStmt [4, 2] =
        some (emptyCreateIndexStmt, [4, 2], Except.error "no table available") ∧
    (∃ table node1 g1,
      table ∈ sampleExecutor.tables.map Prod.snd ∧
      randTable sampleExecutor [4, 2] = some (some table, [2]) ∧
      walkDDLCreateIndex sampleExternals sampleExecutor emptyCreateIndexStmt [4, 2] =
        some (node1, g1, sampleExternals.BufferOutCreateIndex node1) ∧
      node1.Table.Name = NewCIStr table.Table) ∧
    ((∃ node1 g1, walkDDLCreateIndex sampleExternals sampleExecutor emptyCreateIndexStmt [4, 2] =
        some (node1, g1, Except.error "no table available")) ↔ sampleExecutor.tables = []) :=
  ⟨(walkDDLCreateIndex_no_table_iff sampleExternals { tables := [] } emptyCreateIndexStmt
      [4, 2]).2.1 rfl,
    (walkDDLCreateIndex_no_table_iff sampleExternals sampleExecutor emptyCreateIndexStmt
      [4, 2]).2.2.1 (by decide),
    (walkDDLCreateIndex_no_table_iff sampleExternals sampleExecutor emptyCreateIndexStmt
      [4, 2]).2.2.2 (fun _ h => by simp [sampleExternals] at h)⟩

/-! ## Table selection and random bounds: results -/

/-- The table selected by `randTable`, in terms of the snapshot and the first raw draw. -/
theorem randTable_selected (e : Executor) (g : Rng) :
    (randTable e g).map Prod.fst =
      if (e.tables.map Prod.snd).length = 0 then some none
      else ((e.tables.map Prod.snd)[(((g.headD 0 : Nat) : Int) %
        ((e.tables.map Prod.snd).length : Int)).toNat]?).map some := by
  by_cases h : e.tables = []
  · rw [randTable_empty e g h]
    simp [h]
  · obtain ⟨table, htable, _, hget⟩ := randTable_nonempty e g h
    have hlen : (e.tables.map Prod.snd).length ≠ 0 := by
      simpa using h
    rw [htable, if_neg hlen, hget]
    rfl

/-- C17 (amended): the table selected by `randTable` is a function of the catalog's tables in
the order in which the map iteration yields them and of the value of the draw: two runs with
the same iteration order and the same draw select the same table. Under any iteration order of
the same contents the selected table is one of the catalog's tables. -/
theorem randTable_same_order (e1 e2 : Executor) (g1 g2 : Rng)
    (horder : e1.tables.map Prod.snd = e2.tables.map Prod.snd)
    (hdraw : g1.headD 0 = g2.headD 0) :
    (randTable e1 g1).map Prod.fst = (randTable e2 g2).map Prod.fst ∧
    ∀ (e3 : Executor) (g3 : Rng) (table : Table), e3.tables.Perm e1.tables →
      (randTable e3 g3).map Prod.fst = some (some table) → table ∈ e1.tables.map Prod.snd := by
  constructor
  · rw [randTable_selected, randTable_selected, horder, hdraw]
  · intro e3 g3 table hperm hsel
    by_cases h : e3.tables = []
    · rw [randTable_empty e3 g3 h] at hsel
      simp at hsel
    · obtain ⟨t, htable, hmem, _⟩ := randTable_nonempty e3 g3 h
      rw [htable] at hsel
      simp only [Option.map_some', Option.some.injEq] at hsel
      subst hsel
      exact (hperm.map Prod.snd).mem_iff.1 hmem

/-- Witness for C17 (amended): the same two-table catalog in the same order, with two tapes that
agree on the first draw. -/
theorem randTable_same_order_witness :
    (randTable catalogOrderOne [1, 5]).map Prod.fst =
        (randTable catalogOrderOne [1, 9]).map Prod.fst ∧
    ∀ (e3 : Executor) (g3 : Rng) (table : Table), e3.tables.Perm catalogOrderOne.tables →
      (randTable e3 g3).map Prod.fst = some (some table) →
      table ∈ catalogOrderOne.tables.map Prod.snd :=
  randTable_same_order catalogOrderOne catalogOrderOne [1, 5] [1, 9] rfl rfl

/-- C17 fails as stated: two iteration orders of the same catalog contents and the same draw
select different tables. -/
theorem randTable_same_order_counterexample :
    catalogOrderOne.tables.Perm catalogOrderTwo.tables ∧
    (randTable catalogOrderOne [0]).map Prod.fst = some (some tableWithoutId) ∧
    (randTable catalogOrderTwo [0]).map Prod.fst = some (some wideTable) ∧
    tableWithoutId ≠ wideTable :=
  ⟨List.Perm.swap _ _ _, by decide, by decide, by decide⟩

/-- C19: `Rd` fails exactly on a non-positive bound, and neither `randTable`, nor the length
computation of the column loop, nor `walkDDLCreateIndex` ever fails, for every catalog and every
column whatever its declared length. `randTable` draws with bound `len(tables)`, positive, only
on a non-empty catalog; the `varchar` branch draws with bound `maxLen - 1` only when the declared
length is above 1, where `maxLen = MinInt(DataLen, 32) ≥ 2`, and makes no draw otherwise. -/
theorem rd_bounds_positive {δ : Type} (X : Externals δ) (e : Executor) (node : CreateIndexStmt)
    (column : Column) (g : Rng) :
    (∀ (n : Int) (g0 : Rng), Rd n g0 = none ↔ n ≤ 0) ∧
    (randTable e g).isSome = true ∧
    (indexPartLength column g).isSome = true ∧
    (walkDDLCreateIndex X e node g).isSome = true ∧
    (e.tables = [] → randTable e g = some (none, g)) ∧
    (e.tables ≠ [] →
      0 < ((e.tables.foldl (fun acc kv => acc ++ [kv.2]) ([] : List Table)).length : Int) ∧
      ∃ table, randTable e g = some (some table, g.tail)) ∧
    (column.DataLen > 1 →
      2 ≤ MinInt column.DataLen 32 ∧ 0 < MinInt column.DataLen 32 - 1) ∧
    (column.DataType = "varchar" → ¬ column.DataLen > 1 →
      indexPartLength column g = some (some 1, g)) := by
  refine ⟨?_, ?_, ?_, ?_, randTable_empty e g, ?_, ?_, ?_⟩
  · intro n g0
    unfold Rd
    constructor
    · intro h
      by_contra hn
      rw [if_pos (by omega)] at h
      simp at h
    · intro h
      rw [if_neg (by omega)]
  · by_cases h : e.tables = []
    · rw [randTable_empty e g h]; rfl
    · obtain ⟨table, htable, _⟩ := randTable_nonempty e g h
      rw [htable]; rfl
  · obtain ⟨len, g1, h⟩ := indexPartLength_total column g
    rw [h]; rfl
  · by_cases h : e.tables = []
    · rw [walkDDLCreateIndex_empty X e node g h]; rfl
    · obtain ⟨table, node1, g1, _, _, hrun, _⟩ := walkDDLCreateIndex_table X e node g h
      rw [hrun]; rfl
  · intro h
    obtain ⟨table, htable, _⟩ := randTable_nonempty e g h
    refine ⟨?_, table, htable⟩
    rw [randTable_snapshot]
    cases hT : e.tables with
    | nil => exact absurd hT h
    | cons a l => simp
  · intro h
    rw [MinInt_eq_min]
    omega
  · intro hv hl
    exact indexPartLength_varchar_short column g hv hl

/-! ## Exhaustive boundary rows: results -/

theorem foldl_triple {α : Type} (a b c : α) (subs : List (List α)) (acc : List (List α)) :
    subs.foldl (fun res sub => res ++ [a :: sub, b :: sub, c :: sub]) acc =
      acc ++ subs.flatMap (fun sub => [a :: sub, b :: sub, c :: sub]) := by
  induction subs generalizing acc with
  | nil => simp
  | cons s ss ih => simp [ih]

theorem assignments_rows {δ : Type} (v : ExprNode δ × ExprNode δ)
    (vals : List (ExprNode δ × ExprNode δ)) (l : List (List Alt)) :
    (l.flatMap (fun sub => [Alt.zero :: sub, Alt.rand :: sub, Alt.null :: sub])).map
        (rowOfAssignment (v :: vals)) =
      (l.map (rowOfAssignment vals)).flatMap
        (fun sub => [v.1 :: sub, v.2 :: sub, NewValueExpr none :: sub]) := by
  induction l with
  | nil => simp
  | cons s ss ih =>
    simp only [List.flatMap_cons, List.map_append, ih, List.map_cons]
    simp [rowOfAssignment, Alt.pick]

theorem assignments_length (n : Nat) : (assignments n).length = 3 ^ n := by
  induction n with
  | zero => simp [assignments]
  | succ n ih =>
    have h : ∀ l : List (List Alt),
        (l.flatMap (fun sub => [Alt.zero :: sub, Alt.rand :: sub, Alt.null :: sub])).length =
          3 * l.length := by
      intro l
      induction l with
      | nil => simp
      | cons s ss ihl => simp [List.flatMap_cons, ihl]; omega
    rw [assignments, h, ih, pow_succ]
    omega

theorem mem_assignments (n : Nat) (a : List Alt) : a ∈ assignments n ↔ a.length = n := by
  induction n generalizing a with
  | zero => simp [assignments]
  | succ n ih =>
    simp only [assignments, List.mem_flatMap, List.mem_cons, List.mem_singleton,
      List.not_mem_nil, or_false]
    constructor
    · rintro ⟨sub, hsub, rfl | rfl | rfl⟩ <;> simp [(ih sub).1 hsub]
    · intro h
      cases a with
      | nil => simp at h
      | cons x xs =>
        refine ⟨xs, (ih xs).2 (by simpa using h), ?_⟩
        cases x <;> simp

theorem assignments_nodup (n : Nat) : (assignments n).Nodup := by
  induction n with
  | zero => simp [assignments]
  | succ n ih =>
    rw [assignments, List.nodup_flatMap]
    constructor
    · intro sub _
      simp
    · refine ih.imp ?_
      intro s1 s2 hne
      simp only [Function.onFun, List.disjoint_left, List.mem_cons, List.mem_singleton,
        List.not_mem_nil, or_false]
      rintro a (rfl | rfl | rfl) h <;> simp_all

/-- The rows of `randor0` on a non-empty list: one row per assignment, in the order of
`assignments`, built from one zero expression and one random expression per column. -/
theorem randor0_eq {δ : Type} (X : Externals δ) (cols : List Column) (g : Rng)
    (h : cols ≠ []) :
    ∃ vals g1,
      randor0 X cols g = some ((assignments cols.length).map (rowOfAssignment vals), g1) ∧
      List.Forall₂
        (fun column v => ∃ g0 g2,
          v = (NewValueExpr (some (X.GenerateZeroDataItem column g0).1),
            NewValueExpr (some (X.GenerateDataItem column g2).1)))
        cols vals := by
  induction cols generalizing g with
  | nil => exact absurd rfl h
  | cons c rest ih =>
    by_cases hrest : rest = []
    · subst hrest
      refine ⟨[(NewValueExpr (some (X.GenerateZeroDataItem c g).1),
          NewValueExpr (some (X.GenerateDataItem c (X.GenerateZeroDataItem c g).2).1))],
        (X.GenerateDataItem c (X.GenerateZeroDataItem c g).2).2,
        ?_, List.Forall₂.cons ⟨_, _, rfl⟩ List.Forall₂.nil⟩
      simp [randor0, assignments, rowOfAssignment, Alt.pick]
    · obtain ⟨vals, g1, hrun, hrel⟩ :=
        ih (X.GenerateDataItem c (X.GenerateZeroDataItem c g).2).2 hrest
      have hlen : ¬ rest.length + 1 = 1 := by
        cases rest with
        | nil => exact absurd rfl hrest
        | cons a l => simp
      refine ⟨(NewValueExpr (some (X.GenerateZeroDataItem c g).1),
          NewValueExpr (some (X.GenerateDataItem c (X.GenerateZeroDataItem c g).2).1)) :: vals,
        g1, ?_, List.Forall₂.cons ⟨_, _, rfl⟩ hrel⟩
      rw [randor0]
      simp only [List.length_cons, hlen, if_false, hrun, foldl_triple, List.nil_append,
        assignments, assignments_rows]

theorem rowOfAssignment_length {δ : Type} (vals : List (ExprNode δ × ExprNode δ))
    (a : List Alt) (n : Nat) (hv : vals.length = n) (ha : a.length = n) :
    (rowOfAssignment vals a).length = n := by
  simp [rowOfAssignment, hv, ha]

/-- C14: for every non-empty list of N columns, `randor0` returns 3^N rows of length N: one row
for each assignment of an alternative (zero value, random value, null) to each column, where
the list of assignments has no duplicate and contains every assignment of length N, and each
column has one zero expression and one random expression generated for it. -/
theorem randor0_rows {δ : Type} (X : Externals δ) (cols : List Column) (g : Rng)
    (h : cols ≠ []) :
    ∃ rows vals g1,
      randor0 X cols g = some (rows, g1) ∧
      rows.length = 3 ^ cols.length ∧
      (∀ row ∈ rows, row.length = cols.length) ∧
      List.Forall₂
        (fun column v => ∃ g0 g2,
          v = (NewValueExpr (some (X.GenerateZeroDataItem column g0).1),
            NewValueExpr (some (X.GenerateDataItem column g2).1)))
        cols vals ∧
      rows = (assignments cols.length).map (rowOfAssignment vals) ∧
      (assignments cols.length).Nodup ∧
      ∀ a : List Alt, a ∈ assignments cols.length ↔ a.length = cols.length := by
  obtain ⟨vals, g1, hrun, hrel⟩ := randor0_eq X cols g h
  refine ⟨_, vals, g1, hrun, ?_, ?_, hrel, rfl, assignments_nodup _, mem_assignments _⟩
  · rw [List.length_map, assignments_length]
  · intro row hrow
    obtain ⟨a, ha, rfl⟩ := List.mem_map.1 hrow
    exact rowOfAssignment_length vals a cols.length hrel.length_eq.symm
      ((mem_assignments _ a).1 ha)

/-- Witness for C14: the two insertable columns of the sample table give nine rows. -/
theorem randor0_rows_witness :
    ∃ rows vals g1,
      randor0 sampleExternals (sampleTable.Columns.drop 1) [4, 5, 6, 7] = some (rows, g1) ∧
      rows.length = 3 ^ (sampleTable.Columns.drop 1).length ∧
      (∀ row ∈ rows, row.length = (sampleTable.Columns.drop 1).length) ∧
      List.Forall₂
        (fun column v => ∃ g0 g2,
          v = (NewValueExpr (some (sampleExternals.GenerateZeroDataItem column g0).1),
            NewValueExpr (some (sampleExternals.GenerateDataItem column g2).1)))
        (sampleTable.Columns.drop 1) vals ∧
      rows = (assignments (sampleTable.Columns.drop 1).length).map (rowOfAssignment vals) ∧
      (assignments (sampleTable.Columns.drop 1).length).Nodup ∧
      ∀ a : List Alt, a ∈ assignments (sampleTable.Columns.drop 1).length ↔
        a.length = (sampleTable.Columns.drop 1).length :=
  randor0_rows sampleExternals (sampleTable.Columns.drop 1) [4, 5, 6, 7] (by decide)

/-- C18: `randor0` completes exactly on non-empty column lists: it returns rows for every
non-empty list and fails at `cols[0]` on the empty list; so it fails on the insertable columns
of a table whose columns are all named `id`. -/
theorem randor0_total_iff {δ : Type} (X : Externals δ) (cols : List Column) (g : Rng) :
    ((randor0 X cols g).isSome = true ↔ cols ≠ []) ∧
    randor0 X [] g = none ∧
    ∀ (columns : List ColumnName) (table : Table),
      (∀ c ∈ table.Columns, c.Column = "id") →
      (walkColumns columns table.Columns).2 = [] ∧
      randor0 X (walkColumns columns table.Columns).2 g = none := by
  refine ⟨?_, rfl, ?_⟩
  · constructor
    · intro hsome hnil
      rw [hnil] at hsome
      simp [randor0] at hsome
    · intro hne
      obtain ⟨vals, g1, hrun, _⟩ := randor0_eq X cols g hne
      rw [hrun]; rfl
  · intro columns table hid
    have hnil : (walkColumns columns table.Columns).2 = [] := by
      rw [walkColumns_eq]
      simp only [List.filter_eq_nil_iff]
      intro c hc
      simp [hid c hc]
    rw [hnil]
    exact ⟨rfl, rfl⟩

/-- Witness for C18: the table whose only column is `id`. -/
theorem randor0_total_iff_witness :
    (walkColumns [] tableOnlyId.Columns).2 = [] ∧
    randor0 sampleExternals (walkColumns [] tableOnlyId.Columns).2 [4, 5] = none :=
  (randor0_total_iff sampleExternals [] [4, 5]).2.2 [] tableOnlyId (by decide)

end Walk
